import Mathlib

/-!
The per-partition offset tracker of corokafka's `OffsetManager`.

A shallow embedding of `src/corokafka/utils/corokafka_offset_manager.cpp`:
`OffsetManager::setStartingOffset` and `OffsetManager::insertOffset`, together with
the interval container they operate on, and the manager around the trackers: its
constructor, `queryOffsetsFromBroker`, the lookups `getTopicSettings`, `getOffsetRanges`,
`getCurrentOffset`, `getBeginOffset`, and `resetPartitionOffsets`.  From
`src/corokafka/corokafka_configuration.cpp` it embeds `Configuration::parseOptions`, and
from `src/corokafka/corokafka_utils.cpp` the functions `logLevelFromString` and
`handleException`.

Offsets are `int64_t` in the source and `Int` here.  The only arithmetic the embedded
functions perform is `_currentOffset + 1` and `high - (RD_KAFKA_OFFSET_TAIL_BASE - offset)`;
signed overflow is undefined behaviour in C++, so the embedding describes the program on
the runs where it does not occur (Kafka offsets are far below `2^63`).
-/

namespace Corokafka

/-! ## Constants of the underlying client libraries -/

/-- The value of `cppkafka::TopicPartition::Offset::OFFSET_BEGINNING`. -/
def OFFSET_BEGINNING : Int := -2

/-- The value of `cppkafka::TopicPartition::Offset::OFFSET_END`. -/
def OFFSET_END : Int := -1

/-- The value of `cppkafka::TopicPartition::Offset::OFFSET_STORED`. -/
def OFFSET_STORED : Int := -1000

/-- The value of `cppkafka::TopicPartition::Offset::OFFSET_INVALID`. -/
def OFFSET_INVALID : Int := -1001

/-- The value of librdkafka's `RD_KAFKA_OFFSET_TAIL_BASE`. -/
def RD_KAFKA_OFFSET_TAIL_BASE : Int := -2000

/-- The value of librdkafka's `RD_KAFKA_PARTITION_UA` (unassigned partition). -/
def RD_KAFKA_PARTITION_UA : Int := -1

/-! ## Data model -/

/-- The type `Range<int64_t>`: a closed interval given by its two ends. -/
structure Range where
  first : Int
  second : Int
deriving DecidableEq, Repr

/-- The type `Point<int64_t>`: a single offset handed to the interval container. -/
structure Point where
  value : Int
deriving DecidableEq, Repr

/-- Modelled from the spec: the container type of `OffsetRanges::_offsets`
(`corokafka_interval_set.h` is not among the sources).  The spec describes it as an
ordered set of closed intervals keyed by `first`; it is kept here as the list of its
intervals in ascending key order. -/
abbrev IntervalSet := List Range

/-- What `IntervalSet::insert` hands back: a `std::pair<iterator, bool>`.  `first` is the
interval the iterator designates, `second` tells whether the container was modified, and
`set` is the container after the call. -/
structure InsertReturn where
  set : IntervalSet
  first : Range
  second : Bool
deriving DecidableEq, Repr

/-- Modelled from the spec: `IntervalSet::insert` on a single offset (the header is not
among the sources).  The spec: insert the offset into the intervals, merging with any
adjacent interval (`i.last + 1 == offset` or `offset + 1 == j.first`); an offset that is
already inside an interval changes nothing.  The walk goes through the intervals in
ascending key order. -/
def IntervalSet.insertAt : IntervalSet → Int → InsertReturn
  | [], o => ⟨[⟨o, o⟩], ⟨o, o⟩, true⟩
  | iv :: rest, o =>
    if o + 1 < iv.first then
      ⟨⟨o, o⟩ :: iv :: rest, ⟨o, o⟩, true⟩
    else if o + 1 = iv.first then
      ⟨⟨o, iv.second⟩ :: rest, ⟨o, iv.second⟩, true⟩
    else if o ≤ iv.second then
      ⟨iv :: rest, iv, false⟩
    else if iv.second + 1 = o then
      match rest with
      | [] => ⟨[⟨iv.first, o⟩], ⟨iv.first, o⟩, true⟩
      | nx :: rest' =>
        if o + 1 = nx.first then
          ⟨⟨iv.first, nx.second⟩ :: rest', ⟨iv.first, nx.second⟩, true⟩
        else
          ⟨⟨iv.first, o⟩ :: nx :: rest', ⟨iv.first, o⟩, true⟩
    else
      let r := IntervalSet.insertAt rest o
      ⟨iv :: r.set, r.first, r.second⟩

/-- Modelled from the spec: `IntervalSet::insert(Point<int64_t>)` (the header is not among
the sources); see `IntervalSet.insertAt`. -/
def IntervalSet.insert (s : IntervalSet) (point : Point) : InsertReturn :=
  IntervalSet.insertAt s point.value

/-- Modelled from the spec: `IntervalSet::erase(key)` (the header is not among the
sources), the `std::map` erase by key: the interval whose `first` is the key is removed. -/
def IntervalSet.erase (s : IntervalSet) (key : Int) : IntervalSet :=
  s.filter (fun iv => decide (iv.first ≠ key))

/-- The struct `OffsetManager::OffsetRanges`: the tracker of one partition (its mutex is
not part of the sequential model). -/
structure OffsetRanges where
  _beginOffset : Int
  _currentOffset : Int
  _offsets : IntervalSet
deriving DecidableEq, Repr

/-- The struct `OffsetWatermark`: a partition id and the broker's low and high offsets. -/
structure OffsetWatermark where
  _partition : Int
  _low : Int
  _high : Int
deriving DecidableEq, Repr

/-- A newly constructed tracker.  The member initialisers of `OffsetRanges` are in a header
that is not among the sources, so the two scalar members are parameters; a newly
constructed container holds no interval. -/
def freshRanges (b0 c0 : Int) : OffsetRanges := ⟨b0, c0, []⟩

/-! ## Operations -/

/-- The function `OffsetManager::setStartingOffset` (lines 135-171).  `committedOffset` is
`committedOffset.get_offset()`. -/
def setStartingOffset (offset : Int) (ranges : OffsetRanges) (committedOffset : Int)
    (watermark : OffsetWatermark) (autoResetAtEnd : Bool) : OffsetRanges :=
  if watermark._partition = RD_KAFKA_PARTITION_UA then ranges
  else if offset = OFFSET_STORED ∨ offset = OFFSET_INVALID then
    if committedOffset ≥ 0 then
      { ranges with _beginOffset := committedOffset, _currentOffset := committedOffset }
    else if autoResetAtEnd then
      { ranges with _beginOffset := watermark._high, _currentOffset := watermark._high }
    else
      { ranges with _beginOffset := watermark._low, _currentOffset := watermark._low }
  else if offset = OFFSET_BEGINNING then
    { ranges with _beginOffset := watermark._low, _currentOffset := watermark._low }
  else if offset = OFFSET_END then
    { ranges with _beginOffset := watermark._high, _currentOffset := watermark._high }
  else if offset < RD_KAFKA_OFFSET_TAIL_BASE then
    { ranges with
      _beginOffset := watermark._high - (RD_KAFKA_OFFSET_TAIL_BASE - offset),
      _currentOffset := watermark._high - (RD_KAFKA_OFFSET_TAIL_BASE - offset) }
  else ranges

/-- The function `OffsetManager::insertOffset` (lines 244-260): the tracker after the call
and the returned range. -/
def insertOffset (ranges : OffsetRanges) (offset : Int) : OffsetRanges × Range :=
  let it := IntervalSet.insert ranges._offsets ⟨offset⟩
  if it.second = true ∧ it.first.first = ranges._currentOffset + 1 then
    ({ ranges with
        _currentOffset := it.first.second,
        _offsets := IntervalSet.erase it.set it.first.first },
      ⟨it.first.first, it.first.second⟩)
  else
    ({ ranges with _offsets := it.set }, ⟨-1, -1⟩)

/-- One acknowledgment: the tracker left behind by `insertOffset`. -/
def acknowledge (ranges : OffsetRanges) (offset : Int) : OffsetRanges :=
  (insertOffset ranges offset).1

/-- A sequence of acknowledgments, applied left to right. -/
def acknowledgeAll (ranges : OffsetRanges) (acks : List Int) : OffsetRanges :=
  acks.foldl acknowledge ranges

/-- The value of `_currentOffset` after each acknowledgment of a sequence. -/
def currentOffsetTrace (ranges : OffsetRanges) : List Int → List Int
  | [] => []
  | o :: acks => (acknowledge ranges o)._currentOffset :: currentOffsetTrace (acknowledge ranges o) acks

/-! ## Predicates used to state the properties -/

/-- The offset `x` lies inside the interval `iv`. -/
def Range.Contains (iv : Range) (x : Int) : Prop := iv.first ≤ x ∧ x ≤ iv.second

instance (iv : Range) (x : Int) : Decidable (iv.Contains x) := by
  unfold Range.Contains; infer_instance

/-- The offset `x` lies inside one of the stored intervals. -/
def IntervalSet.Covers (s : IntervalSet) (x : Int) : Prop := ∃ iv ∈ s, iv.Contains x

instance (s : IntervalSet) (x : Int) : Decidable (IntervalSet.Covers s x) := by
  unfold IntervalSet.Covers; infer_instance

/-- Well-formed container: every interval has `first ≤ second`, and the intervals are in
ascending order, pairwise disjoint and non-adjacent (a later interval starts more than
one past the end of an earlier one). -/
def IntervalSet.WF (s : IntervalSet) : Prop :=
  (∀ iv ∈ s, iv.first ≤ iv.second) ∧ s.Pairwise (fun p q => p.second + 1 < q.first)

instance (s : IntervalSet) : Decidable (IntervalSet.WF s) := by
  unfold IntervalSet.WF; infer_instance

/-- The invariant the spec states for a tracker: the stored intervals are pairwise disjoint
and non-adjacent, and every offset they contain is strictly greater than `_currentOffset`. -/
def TrackerInvariant (r : OffsetRanges) : Prop :=
  IntervalSet.WF r._offsets ∧ ∀ x, IntervalSet.Covers r._offsets x → r._currentOffset < x

/-- Tracker states reachable from an initialised tracker (a newly constructed tracker after
`setStartingOffset`) by a sequence of acknowledgments. -/
def Reachable (r : OffsetRanges) : Prop :=
  ∃ (offset b0 c0 committedOffset : Int) (watermark : OffsetWatermark) (autoResetAtEnd : Bool)
    (acks : List Int),
    r = acknowledgeAll
      (setStartingOffset offset (freshRanges b0 c0) committedOffset watermark autoResetAtEnd) acks

/-- The results of `saveOffset` that the tracker decides. -/
inductive ErrorKind where
  | NoError
  | InvalidArgument
deriving DecidableEq, Repr

/-- Modelled from the spec: `OffsetManager::saveOffsetImpl` restricted to the tracker of the
addressed partition (a template of `corokafka_offset_manager.h`, which is not among the
sources; `saveOffset` at lines 173-182 only forwards to it).  The spec: acknowledging an
offset less than `beginOffset` is rejected as `ErrorKind::InvalidArgument`; otherwise the
offset is acknowledged in its tracker.  The broker commit that follows an advance is
outside the model. -/
def saveOffsetImpl (ranges : OffsetRanges) (offset : Int) : ErrorKind × OffsetRanges × Range :=
  if offset < ranges._beginOffset then
    (ErrorKind.InvalidArgument, ranges, ⟨-1, -1⟩)
  else
    (ErrorKind.NoError, insertOffset ranges offset)

/-- The function `OffsetManager::saveOffset` (lines 173-176): forwards to `saveOffsetImpl`. -/
def saveOffset (ranges : OffsetRanges) (offset : Int) : ErrorKind × OffsetRanges × Range :=
  saveOffsetImpl ranges offset

/-- The tracker used in the examples: a newly constructed tracker assigned at `BEGINNING`
on a partition with watermarks low = 100 and high = 110. -/
def trackerAt100 : OffsetRanges :=
  setStartingOffset OFFSET_BEGINNING (freshRanges OFFSET_INVALID OFFSET_INVALID) OFFSET_INVALID
    ⟨0, 100, 110⟩ true

/-! ## The offset manager -/

/-- The type `cppkafka::TopicPartition`: a topic, a partition id and an offset. -/
structure TopicPartition where
  topic : String
  partition : Int
  offset : Int
deriving DecidableEq, Repr

/-- The exceptions thrown by the embedded functions: `std::out_of_range`,
`InvalidArgumentException(argument, what)` and `InvalidOptionException(option, what)`. -/
inductive Exception where
  | out_of_range (what : String)
  | InvalidArgumentException (argument : Nat) (what : String)
  | InvalidOptionException (option : String) (what : String)
deriving DecidableEq, Repr

deriving instance DecidableEq for Except

/-- Lookup in a standard associative container (`find`), kept as a list of bindings with
one binding per key. -/
def mapFind {κ α : Type} [DecidableEq κ] : List (κ × α) → κ → Option α
  | [], _ => none
  | (k', v) :: rest, k => if k' = k then some v else mapFind rest k

/-- Assignment through a reference obtained by `operator[]` of a standard associative
container: the binding of the key is replaced, or added when there was none. -/
def mapAssign {κ α : Type} [DecidableEq κ] : List (κ × α) → κ → α → List (κ × α)
  | [], k, v => [(k, v)]
  | (k', v') :: rest, k, v =>
    if k' = k then (k, v) :: rest else (k', v') :: mapAssign rest k v

/-- Modelled from the spec: the struct `OffsetManager::TopicSettings` (declared in
`corokafka_offset_manager.h`, which is not among the sources): a mapping from partition id
to tracker, plus `autoResetAtEnd`. -/
structure TopicSettings where
  _autoResetAtEnd : Bool
  _partitions : List (Int × OffsetRanges)
deriving DecidableEq, Repr

/-- The members of `OffsetManager` that the embedded functions read or write: the topic
map and the broker timeout in milliseconds. -/
structure OffsetManager where
  _topicMap : List (String × TopicSettings)
  _brokerTimeout : Int
deriving DecidableEq, Repr

/-- The default-constructed values of the types whose declarations are in headers that
are not among the sources; they are parameters of the model. -/
structure Defaults where
  beginOffset : Int
  currentOffset : Int
  autoResetAtEnd : Bool
  watermark : OffsetWatermark
deriving DecidableEq, Repr

/-- A default-constructed `OffsetRanges`. -/
def Defaults.ranges (d : Defaults) : OffsetRanges := freshRanges d.beginOffset d.currentOffset

/-- A default-constructed `TopicSettings`. -/
def Defaults.settings (d : Defaults) : TopicSettings := ⟨d.autoResetAtEnd, []⟩

/-- A default-constructed `cppkafka::TopicPartition`: no topic, unassigned partition,
invalid offset. -/
def TopicPartition.notFound : TopicPartition := ⟨"", -1, OFFSET_INVALID⟩

/-- Modelled from the spec: the enum `TimerValues` (declared in a header that is not among
the sources).  The spec names the values Disabled and Unlimited; their numbers are the two
non-positive values the constructor's message `Timeout values can be [-2, -1, >0]` lists. -/
def TimerValues.Unlimited : Int := -1

/-- Modelled from the spec: see `TimerValues.Unlimited`. -/
def TimerValues.Disabled : Int := -2

/-- Modelled from the spec: the enum `OffsetManager::ResetAction` (declared in a header that
is not among the sources).  The spec names `FetchOffsets`; the other constructor stands
for every other action. -/
inductive ResetAction where
  | FetchOffsets
  | DoNotFetchOffsets
deriving DecidableEq, Repr

/-- A string with its surrounding blanks removed and its letters in lower case. -/
def normalizeName (s : String) : List Char :=
  ((s.toList.dropWhile Char.isWhitespace).reverse.dropWhile Char.isWhitespace).reverse.map
    Char.toLower

/-- The comparator used in the examples: equality of strings ignoring letter case and
surrounding blanks.  The comparator of the program, the two-argument call of
`StringEqualCompare`, is declared in `corokafka_utils.h`, which is not among the sources;
the embedded functions that call it take it as a parameter. -/
def exampleStringEqualCompare (s1 s2 : String) : Bool :=
  normalizeName s1 == normalizeName s2

/-- What the offset manager reads from its `ConsumerManager` and, through the topic's
metadata, from the broker.  The runs on which one of these reads throws are outside the
model. -/
structure ConsumerManager where
  getTopics : List String
  getOption : String → String → Option String
  getTopicOption : String → String → Option String
  queryCommittedOffsets : String → List TopicPartition
  queryOffsetWatermarks : String → List OffsetWatermark
  getPartitionAssignment : String → List TopicPartition

/-- The function `OffsetManager::findPartition` (lines 111-121). -/
def findPartition (partitions : List TopicPartition) (partition : Int) : TopicPartition :=
  match partitions.find? (fun toppar => decide (toppar.partition = partition)) with
  | none => TopicPartition.notFound
  | some toppar => toppar

/-- The function `OffsetManager::findWatermark` (lines 123-133). -/
def findWatermark (d : Defaults) (watermarks : List OffsetWatermark) (partition : Int) :
    OffsetWatermark :=
  match watermarks.find? (fun watermark => decide (watermark._partition = partition)) with
  | none => d.watermark
  | some watermark => watermark

/-- The function `OffsetManager::queryOffsetsFromBroker` (lines 68-109) without its log
output: the settings of the topic after the loop over the assignment. -/
def queryOffsetsFromBroker (d : Defaults) (consumerManager : ConsumerManager) (topic : String)
    (settings : TopicSettings) : TopicSettings :=
  (consumerManager.getPartitionAssignment topic).foldl
    (fun settings toppar =>
      { settings with
        _partitions := mapAssign settings._partitions toppar.partition
          (setStartingOffset toppar.offset
            ((mapFind settings._partitions toppar.partition).getD d.ranges)
            (findPartition (consumerManager.queryCommittedOffsets topic) toppar.partition).offset
            (findWatermark d (consumerManager.queryOffsetWatermarks topic) toppar.partition)
            settings._autoResetAtEnd) })
    settings

/-- The two-argument constructor `OffsetManager::OffsetManager` (lines 33-66).  The
parameter `StringEqualCompare` stands for the two-argument call of the comparator of that
name, which is declared in `corokafka_utils.h`, a header that is not among the sources. -/
def newOffsetManager (StringEqualCompare : String → String → Bool) (d : Defaults) (consumerManager : ConsumerManager)
    (brokerTimeout : Int) : Except Exception OffsetManager :=
  if brokerTimeout ≤ 0 ∧ brokerTimeout ≠ TimerValues.Unlimited ∧
      brokerTimeout ≠ TimerValues.Disabled then
    Except.error (Exception.InvalidArgumentException 2 "Timeout values can be [-2, -1, >0]")
  else
    Except.ok
      ⟨consumerManager.getTopics.foldl
          (fun topicMap topic =>
            let topicSettings := (mapFind topicMap topic).getD d.settings
            let offsetReset :=
              match consumerManager.getOption topic "auto.offset.reset" with
              | some value => some value
              | none => consumerManager.getTopicOption topic "auto.offset.reset"
            let topicSettings : TopicSettings :=
              match offsetReset with
              | some value =>
                if StringEqualCompare value "smallest" then
                  { topicSettings with _autoResetAtEnd := false }
                else if StringEqualCompare value "earliest" then
                  { topicSettings with _autoResetAtEnd := false }
                else if StringEqualCompare value "beginning" then
                  { topicSettings with _autoResetAtEnd := false }
                else topicSettings
              | none => topicSettings
            mapAssign topicMap topic
              (queryOffsetsFromBroker d consumerManager topic topicSettings))
          [],
        brokerTimeout⟩

/-- The one-argument constructor `OffsetManager::OffsetManager` (lines 28-31). -/
def newOffsetManagerDisabled (StringEqualCompare : String → String → Bool)
    (d : Defaults) (consumerManager : ConsumerManager) :
    Except Exception OffsetManager :=
  newOffsetManager StringEqualCompare d consumerManager TimerValues.Disabled

/-- The function `OffsetManager::getTopicSettings` (lines 286-296). -/
def getTopicSettings (self : OffsetManager) (partition : TopicPartition) :
    Except Exception TopicSettings :=
  match mapFind self._topicMap partition.topic with
  | none => Except.error (Exception.out_of_range ("Unknown topic: " ++ partition.topic))
  | some settings => Except.ok settings

/-- The function `OffsetManager::getOffsetRanges` (lines 305-316). -/
def getOffsetRanges (settings : TopicSettings) (partition : TopicPartition) :
    Except Exception OffsetRanges :=
  match mapFind settings._partitions partition.partition with
  | none =>
    Except.error (Exception.out_of_range ("Unknown partition: " ++ toString partition.partition))
  | some ranges => Except.ok ranges

/-- The function `OffsetManager::getCurrentOffset` (lines 184-191): what it returns or
throws, and the manager after the call. -/
def getCurrentOffset (self : OffsetManager) (partition : TopicPartition) :
    Except Exception TopicPartition × OffsetManager :=
  (match getTopicSettings self partition with
    | Except.error e => Except.error e
    | Except.ok settings =>
      match getOffsetRanges settings partition with
      | Except.error e => Except.error e
      | Except.ok ranges =>
        Except.ok ⟨partition.topic, partition.partition, ranges._currentOffset⟩,
    self)

/-- The function `OffsetManager::getBeginOffset` (lines 193-200): what it returns or
throws, and the manager after the call. -/
def getBeginOffset (self : OffsetManager) (partition : TopicPartition) :
    Except Exception TopicPartition × OffsetManager :=
  (match getTopicSettings self partition with
    | Except.error e => Except.error e
    | Except.ok settings =>
      match getOffsetRanges settings partition with
      | Except.error e => Except.error e
      | Except.ok ranges =>
        Except.ok ⟨partition.topic, partition.partition, ranges._beginOffset⟩,
    self)

/-- The function `OffsetManager::resetPartitionOffsets(topic, action)` (lines 270-278). -/
def resetPartitionOffsets (d : Defaults) (consumerManager : ConsumerManager)
    (self : OffsetManager) (topic : String) (action : ResetAction) : OffsetManager :=
  let topicSettings := (mapFind self._topicMap topic).getD d.settings
  let topicSettings : TopicSettings := { topicSettings with _partitions := [] }
  let topicSettings :=
    if action = ResetAction.FetchOffsets then
      queryOffsetsFromBroker d consumerManager topic topicSettings
    else topicSettings
  { self with _topicMap := mapAssign self._topicMap topic topicSettings }

/-- The function `OffsetManager::resetPartitionOffsets(action)` (lines 262-268). -/
def resetPartitionOffsetsAll (d : Defaults) (consumerManager : ConsumerManager)
    (self : OffsetManager) (action : ResetAction) : OffsetManager :=
  consumerManager.getTopics.foldl
    (fun self topic => resetPartitionOffsets d consumerManager self topic action) self

/-! ## The constructor's loop, one topic at a time -/

/-- The `auto.offset.reset` option the constructor looks at for a topic (lines 50-53): the
option of the configuration, or the topic option when there is none. -/
def offsetResetOption (consumerManager : ConsumerManager) (topic : String) : Option String :=
  match consumerManager.getOption topic "auto.offset.reset" with
  | some value => some value
  | none => consumerManager.getTopicOption topic "auto.offset.reset"

/-- The `auto.offset.reset` option of the topic has one of the values smallest, earliest or
beginning, as the constructor compares them with the given comparator. -/
def ResetsToBeginning (StringEqualCompare : String → String → Bool)
    (consumerManager : ConsumerManager) (topic : String) : Prop :=
  ∃ value, offsetResetOption consumerManager topic = some value ∧
    (StringEqualCompare value "smallest" = true ∨ StringEqualCompare value "earliest" = true ∨
      StringEqualCompare value "beginning" = true)

/-- The body of the constructor's loop over the managed topics (lines 45-65). -/
def constructorStep (StringEqualCompare : String → String → Bool) (d : Defaults) (consumerManager : ConsumerManager)
    (topicMap : List (String × TopicSettings)) (topic : String) :
    List (String × TopicSettings) :=
  let topicSettings := (mapFind topicMap topic).getD d.settings
  let offsetReset := offsetResetOption consumerManager topic
  let topicSettings : TopicSettings :=
    match offsetReset with
    | some value =>
      if StringEqualCompare value "smallest" then
        { topicSettings with _autoResetAtEnd := false }
      else if StringEqualCompare value "earliest" then
        { topicSettings with _autoResetAtEnd := false }
      else if StringEqualCompare value "beginning" then
        { topicSettings with _autoResetAtEnd := false }
      else topicSettings
    | none => topicSettings
  mapAssign topicMap topic (queryOffsetsFromBroker d consumerManager topic topicSettings)

/-- The default-constructed values used in the examples: invalid offsets, `autoResetAtEnd`
true, and an unassigned watermark. -/
def exampleDefaults : Defaults := ⟨OFFSET_INVALID, OFFSET_INVALID, true, ⟨-1, -1001, -1001⟩⟩

/-- The consumer manager used in the examples: topic "t" is configured with
`auto.offset.reset` = EARLIEST and assigned partition 0 at BEGINNING with watermarks
low = 100, high = 110; topic "u" has the topic option `auto.offset.reset` = latest and
no assignment. -/
def exampleConsumerManager : ConsumerManager where
  getTopics := ["t", "u"]
  getOption := fun topic name =>
    if topic = "t" ∧ name = "auto.offset.reset" then some "EARLIEST" else none
  getTopicOption := fun topic name =>
    if topic = "u" ∧ name = "auto.offset.reset" then some "latest" else none
  queryCommittedOffsets := fun _ => []
  queryOffsetWatermarks := fun topic => if topic = "t" then [⟨0, 100, 110⟩] else []
  getPartitionAssignment := fun topic => if topic = "t" then [⟨"t", 0, OFFSET_BEGINNING⟩] else []

/-! ## Configuration options -/

/-- The type `cppkafka::ConfigurationOption`: a key and a value. -/
structure ConfigurationOption where
  key : String
  value : String
deriving DecidableEq, Repr

/-- Modelled from the spec: the three-argument call of `StringEqualCompare` (declared in
`corokafka_utils.h`, which is not among the sources): equality of the first `num`
characters of the two strings ignoring letter case. -/
def StringEqualCompareN (s1 s2 : String) (num : Nat) : Bool :=
  (s1.toList.take num).map Char.toLower == (s2.toList.take num).map Char.toLower

/-- Modelled from the spec: the type `Configuration::OptionSet` (declared in a header that
is not among the sources): the set of allowed option names.  The key comparison of the
set is a parameter of the model. -/
structure OptionSet where
  names : List String
  sameKey : String → String → Bool

/-- The call `allowed.empty()`. -/
def OptionSet.empty (allowed : OptionSet) : Bool := allowed.names.isEmpty

/-- The call `allowed.find(key)`: the name found, if any. -/
def OptionSet.find (allowed : OptionSet) (key : String) : Option String :=
  allowed.names.find? (fun name => allowed.sameKey name key)

/-- The array `OptionList(&optionList)[3]`, indexed by `OptionType`: all options, the
internal options and the rdkafka options. -/
structure OptionLists where
  all : List ConfigurationOption
  internal : List ConfigurationOption
  rdKafka : List ConfigurationOption
deriving DecidableEq, Repr

/-- The loop of `Configuration::parseOptions` (lines 228-241) over the options that are
still to be visited: the exception thrown, if any, and the lists when the loop is left. -/
def parseOptionsLoop ( optionsPrefix : String) (allowed : OptionSet) :
    List ConfigurationOption → OptionLists → Except Exception Unit × OptionLists
  | [], optionList => (Except.ok (), optionList)
  | option :: rest, optionList =>
    if StringEqualCompareN option.key optionsPrefix optionsPrefix.length then
      match allowed.find option.key with
      | none => (Except.error (Exception.InvalidOptionException option.key "Invalid"), optionList)
      | some _ =>
        parseOptionsLoop optionsPrefix allowed rest
          { optionList with internal := optionList.internal ++ [option] }
    else
      parseOptionsLoop optionsPrefix allowed rest
        { optionList with rdKafka := optionList.rdKafka ++ [option] }

/-- The function `Configuration::parseOptions` (lines 219-247). -/
def parseOptions ( optionsPrefix : String) (allowed : OptionSet) (optionList : OptionLists) :
    Except Exception Unit × OptionLists :=
  if !allowed.empty then
    parseOptionsLoop optionsPrefix allowed optionList.all optionList
  else
    (Except.ok (), { optionList with rdKafka := optionList.all })

/-! ## Log levels and exception handling -/

/-- The enum `cppkafka::LogLevel`: the syslog levels 0 to 7. -/
inductive LogLevel where
  | LogEmerg
  | LogAlert
  | LogCrit
  | LogErr
  | LogWarning
  | LogNotice
  | LogInfo
  | LogDebug
deriving DecidableEq, Repr

/-- The numeric value of a `cppkafka::LogLevel`. -/
def LogLevel.value : LogLevel → Nat
  | LogEmerg => 0
  | LogAlert => 1
  | LogCrit => 2
  | LogErr => 3
  | LogWarning => 4
  | LogNotice => 5
  | LogInfo => 6
  | LogDebug => 7

/-- The name `logLevelFromString` compares its argument with for each level. -/
def LogLevel.name : LogLevel → String
  | LogEmerg => "emergency"
  | LogAlert => "alert"
  | LogCrit => "critical"
  | LogErr => "error"
  | LogWarning => "warning"
  | LogNotice => "notice"
  | LogInfo => "info"
  | LogDebug => "debug"

/-- The function `logLevelFromString` (corokafka_utils.cpp, lines 33-61).  The parameter
`compare` stands for its local comparator object `StringEqualCompare compare`, whose type
is declared in `corokafka_utils.h`, a header that is not among the sources. -/
def logLevelFromString (compare : String → String → Bool) (level : String) : Except Exception LogLevel :=
  if compare level "emergency" then Except.ok LogLevel.LogEmerg
  else if compare level "alert" then Except.ok LogLevel.LogAlert
  else if compare level "critical" then Except.ok LogLevel.LogCrit
  else if compare level "error" then Except.ok LogLevel.LogErr
  else if compare level "warning" then Except.ok LogLevel.LogWarning
  else if compare level "notice" then Except.ok LogLevel.LogNotice
  else if compare level "info" then Except.ok LogLevel.LogInfo
  else if compare level "debug" then Except.ok LogLevel.LogDebug
  else Except.error (Exception.InvalidArgumentException 0 "Unknown log level")

/-- The value of librdkafka's `RD_KAFKA_RESP_ERR_UNKNOWN`. -/
def RD_KAFKA_RESP_ERR_UNKNOWN : Int := -1

/-- What `handleException` sees of a `std::exception`: its message, and the Kafka error
code when its dynamic type is `cppkafka::HandleException`. -/
structure StdException where
  what : String
  handleError : Option Int
deriving DecidableEq, Repr

/-- What `handleException` reads of a `TopicConfiguration`: whether an error callback and a
log callback are configured. -/
structure TopicConfiguration where
  errorCallback : Bool
  logCallback : Bool
deriving DecidableEq, Repr

/-- One invocation of a user callback: the error callback with (metadata, error, reason),
or the log callback with (metadata, level, facility, message). -/
inductive CallbackCall (Metadata : Type) where
  | error (metadata : Metadata) (error : Int) (reason : String)
  | log (metadata : Metadata) (level : LogLevel) (facility : String) (message : String)
deriving DecidableEq, Repr

/-- The function `handleException` (corokafka_utils.cpp, lines 63-84): the callback
invocations it makes, in order. -/
def handleException {Metadata : Type} (ex : StdException) (metadata : Metadata)
    (config : TopicConfiguration) (level : LogLevel) : List (CallbackCall Metadata) :=
  (if config.errorCallback then
      match ex.handleError with
      | some error => [CallbackCall.error metadata error ex.what]
      | none => [CallbackCall.error metadata RD_KAFKA_RESP_ERR_UNKNOWN ex.what]
    else []) ++
  (if level.value ≥ LogLevel.LogErr.value then
      if config.logCallback then
        [CallbackCall.log metadata LogLevel.LogErr "corokafka" ex.what]
      else []
    else [])

/-- Whether an invocation is one of the error callback. -/
def CallbackCall.isError {Metadata : Type} : CallbackCall Metadata → Bool
  | CallbackCall.error _ _ _ => true
  | CallbackCall.log _ _ _ _ => false

/-- The description of a partition's `offset` in the JSON schema returned by
`Configuration::getJsonSchema` (corokafka_configuration.cpp, line 78). -/
def partitionOffsetDescription : String :=
  "A partition offset. Values are: -1000(stored),-1(begin),-2(end),>=0(exact or relative)"

end Corokafka

namespace Corokafka

/-! ## The interval container -/

theorem insertAt_cons (iv : Range) (rest : IntervalSet) (o : Int) :
    IntervalSet.insertAt (iv :: rest) o =
      if o + 1 < iv.first then
        ⟨⟨o, o⟩ :: iv :: rest, ⟨o, o⟩, true⟩
      else if o + 1 = iv.first then
        ⟨⟨o, iv.second⟩ :: rest, ⟨o, iv.second⟩, true⟩
      else if o ≤ iv.second then
        ⟨iv :: rest, iv, false⟩
      else if iv.second + 1 = o then
        match rest with
        | [] => ⟨[⟨iv.first, o⟩], ⟨iv.first, o⟩, true⟩
        | nx :: rest' =>
          if o + 1 = nx.first then
            ⟨⟨iv.first, nx.second⟩ :: rest', ⟨iv.first, nx.second⟩, true⟩
          else
            ⟨⟨iv.first, o⟩ :: nx :: rest', ⟨iv.first, o⟩, true⟩
      else
        ⟨iv :: (IntervalSet.insertAt rest o).set, (IntervalSet.insertAt rest o).first,
          (IntervalSet.insertAt rest o).second⟩ := by
  cases rest <;> rfl

theorem insertAt_first_mem (s : IntervalSet) (o : Int) :
    (IntervalSet.insertAt s o).first ∈ (IntervalSet.insertAt s o).set := by
  induction s with
  | nil => simp [IntervalSet.insertAt]
  | cons iv rest ih =>
    rw [insertAt_cons]
    split_ifs
    · simp
    · simp
    · simp
    · cases rest with
      | nil => simp
      | cons nx rest' => dsimp only; split_ifs <;> simp
    · simp only [List.mem_cons]; exact Or.inr ih

theorem insertAt_first_contains (s : IntervalSet) (o : Int)
    (hle : ∀ iv ∈ s, iv.first ≤ iv.second) :
    (IntervalSet.insertAt s o).first.Contains o := by
  induction s with
  | nil => simp [IntervalSet.insertAt, Range.Contains]
  | cons iv rest ih =>
    have hiv := hle iv (List.mem_cons_self _ _)
    rw [insertAt_cons]
    split_ifs with h1 h2 h3 h4
    · simp [Range.Contains]
    · simp only [Range.Contains]; omega
    · simp only [Range.Contains]; omega
    · cases rest with
      | nil => simp only [Range.Contains]; omega
      | cons nx rest' =>
        have hnx := hle nx (by simp)
        dsimp only; split_ifs <;> simp only [Range.Contains] <;> omega
    · exact ih (fun q hq => hle q (List.mem_cons_of_mem _ hq))

theorem insertAt_le (s : IntervalSet) (o : Int)
    (hle : ∀ iv ∈ s, iv.first ≤ iv.second) :
    ∀ iv ∈ (IntervalSet.insertAt s o).set, iv.first ≤ iv.second := by
  induction s with
  | nil => simp [IntervalSet.insertAt]
  | cons iv rest ih =>
    have hiv := hle iv (List.mem_cons_self _ _)
    have hrest : ∀ q ∈ rest, q.first ≤ q.second :=
      fun q hq => hle q (List.mem_cons_of_mem _ hq)
    rw [insertAt_cons]
    split_ifs with h1 h2 h3 h4
    · intro q hq
      simp only [List.mem_cons] at hq
      rcases hq with rfl | rfl | hq
      · simp
      · exact hiv
      · exact hrest q hq
    · intro q hq
      simp only [List.mem_cons] at hq
      rcases hq with rfl | hq
      · simp only; omega
      · exact hrest q hq
    · exact hle
    · cases rest with
      | nil =>
        intro q hq
        simp only [List.mem_singleton] at hq
        subst hq; simp only; omega
      | cons nx rest' =>
        have hnx := hle nx (by simp)
        dsimp only; split_ifs with h5
        · intro q hq
          simp only [List.mem_cons] at hq
          rcases hq with rfl | hq
          · simp only; omega
          · exact hle q (by simp [hq])
        · intro q hq
          simp only [List.mem_cons] at hq
          rcases hq with rfl | rfl | hq
          · simp only; omega
          · exact hnx
          · exact hle q (by simp [hq])
    · intro q hq
      simp only [List.mem_cons] at hq
      rcases hq with rfl | hq
      · exact hiv
      · exact ih hrest q hq

/-- The keys of the container after an insertion are old keys or the inserted offset. -/
theorem insertAt_keys (s : IntervalSet) (o : Int) :
    ∀ q ∈ (IntervalSet.insertAt s o).set, q.first = o ∨ ∃ p ∈ s, q.first = p.first := by
  induction s with
  | nil => simp [IntervalSet.insertAt]
  | cons iv rest ih =>
    rw [insertAt_cons]
    split_ifs with h1 h2 h3 h4
    · intro q hq
      simp only [List.mem_cons] at hq
      rcases hq with rfl | rfl | hq
      · simp
      · exact Or.inr ⟨_, List.mem_cons_self _ _, rfl⟩
      · exact Or.inr ⟨q, List.mem_cons_of_mem _ hq, rfl⟩
    · intro q hq
      simp only [List.mem_cons] at hq
      rcases hq with rfl | hq
      · simp
      · exact Or.inr ⟨q, List.mem_cons_of_mem _ hq, rfl⟩
    · intro q hq; exact Or.inr ⟨q, hq, rfl⟩
    · cases rest with
      | nil =>
        intro q hq
        simp only [List.mem_singleton] at hq
        subst hq; exact Or.inr ⟨iv, by simp, rfl⟩
      | cons nx rest' =>
        dsimp only; split_ifs with h5
        · intro q hq
          simp only [List.mem_cons] at hq
          rcases hq with rfl | hq
          · exact Or.inr ⟨iv, by simp, rfl⟩
          · exact Or.inr ⟨q, by simp [hq], rfl⟩
        · intro q hq
          simp only [List.mem_cons] at hq
          rcases hq with rfl | rfl | hq
          · exact Or.inr ⟨iv, by simp, rfl⟩
          · exact Or.inr ⟨_, by simp, rfl⟩
          · exact Or.inr ⟨q, by simp [hq], rfl⟩
    · intro q hq
      simp only [List.mem_cons] at hq
      rcases hq with rfl | hq
      · exact Or.inr ⟨_, List.mem_cons_self _ _, rfl⟩
      · rcases ih q hq with h | ⟨p, hp, hpq⟩
        · exact Or.inl h
        · exact Or.inr ⟨p, List.mem_cons_of_mem _ hp, hpq⟩

theorem covers_nil (x : Int) : IntervalSet.Covers [] x ↔ False := by
  simp [IntervalSet.Covers]

theorem covers_cons (iv : Range) (rest : IntervalSet) (x : Int) :
    IntervalSet.Covers (iv :: rest) x ↔ iv.Contains x ∨ IntervalSet.Covers rest x := by
  simp [IntervalSet.Covers]

theorem covers_lower_bound (rest : IntervalSet) (b x : Int)
    (hhd : ∀ q ∈ rest, b < q.first) (hc : IntervalSet.Covers rest x) : b < x := by
  obtain ⟨q, hq, hqx⟩ := hc
  have := hhd q hq
  have := hqx.1
  omega

theorem insertAt_pairwise (s : IntervalSet) (o : Int) (h : IntervalSet.WF s) :
    (IntervalSet.insertAt s o).set.Pairwise (fun p q => p.second + 1 < q.first) := by
  induction s with
  | nil => simp [IntervalSet.insertAt]
  | cons iv rest ih =>
    obtain ⟨hle, hpw⟩ := h
    have hiv := hle iv (List.mem_cons_self _ _)
    have hrest : ∀ q ∈ rest, q.first ≤ q.second :=
      fun q hq => hle q (List.mem_cons_of_mem _ hq)
    rw [List.pairwise_cons] at hpw
    obtain ⟨hhd, htl⟩ := hpw
    rw [insertAt_cons]
    split_ifs with h1 h2 h3 h4
    · refine List.Pairwise.cons ?_ (List.Pairwise.cons hhd htl)
      intro q hq
      simp only [List.mem_cons] at hq
      rcases hq with rfl | hq
      · exact h1
      · have := hhd q hq
        show o + 1 < q.first
        omega
    · exact List.Pairwise.cons (fun q hq => hhd q hq) htl
    · exact List.Pairwise.cons hhd htl
    · cases rest with
      | nil => simp
      | cons nx rest' =>
        rw [List.pairwise_cons] at htl
        have hnx := hle nx (by simp)
        have hivnx := hhd nx (by simp)
        dsimp only; split_ifs with h5
        · exact List.Pairwise.cons (fun q hq => htl.1 q hq) htl.2
        · refine List.Pairwise.cons ?_ (List.Pairwise.cons htl.1 htl.2)
          intro q hq
          simp only [List.mem_cons] at hq
          show o + 1 < q.first
          rcases hq with rfl | hq
          · omega
          · have := htl.1 q hq
            omega
    · refine List.Pairwise.cons ?_ (ih ⟨hrest, htl⟩)
      intro q hq
      rcases insertAt_keys rest o q hq with hqo | ⟨p, hp, hpq⟩
      · omega
      · have := hhd p hp
        omega

theorem insertAt_wf (s : IntervalSet) (o : Int) (h : IntervalSet.WF s) :
    IntervalSet.WF (IntervalSet.insertAt s o).set :=
  ⟨insertAt_le s o h.1, insertAt_pairwise s o h⟩

theorem insertAt_covers (s : IntervalSet) (o : Int) (h : IntervalSet.WF s) (x : Int) :
    IntervalSet.Covers (IntervalSet.insertAt s o).set x ↔ IntervalSet.Covers s x ∨ x = o := by
  induction s with
  | nil =>
    simp only [IntervalSet.insertAt, covers_cons, covers_nil, Range.Contains, or_false, false_or]
    omega
  | cons iv rest ih =>
    obtain ⟨hle, hpw⟩ := h
    have hiv := hle iv (List.mem_cons_self _ _)
    have hrest : ∀ q ∈ rest, q.first ≤ q.second :=
      fun q hq => hle q (List.mem_cons_of_mem _ hq)
    rw [List.pairwise_cons] at hpw
    obtain ⟨hhd, htl⟩ := hpw
    rw [insertAt_cons]
    split_ifs with h1 h2 h3 h4
    · by_cases hc : IntervalSet.Covers rest x <;>
        (simp only [covers_cons, hc, Range.Contains, or_true, true_or, or_false]; all_goals omega)
    · by_cases hc : IntervalSet.Covers rest x <;>
        (simp only [covers_cons, hc, Range.Contains, or_true, true_or, or_false]; all_goals omega)
    · by_cases hc : IntervalSet.Covers rest x <;>
        (simp only [covers_cons, hc, Range.Contains, or_true, true_or, or_false]; all_goals omega)
    · cases rest with
      | nil =>
        simp only [covers_cons, covers_nil, Range.Contains, or_false]
        omega
      | cons nx rest' =>
        have hnx := hle nx (by simp)
        have hivnx := hhd nx (by simp)
        dsimp only; split_ifs with h5
        · by_cases hc : IntervalSet.Covers rest' x <;>
            (simp only [covers_cons, hc, Range.Contains, or_true, true_or, or_false]; all_goals omega)
        · by_cases hc : IntervalSet.Covers rest' x <;>
            (simp only [covers_cons, hc, Range.Contains, or_true, true_or, or_false]; all_goals omega)
    · rw [covers_cons, ih ⟨hrest, htl⟩, covers_cons]
      tauto

theorem insertAt_second_false_set (s : IntervalSet) (o : Int)
    (h : (IntervalSet.insertAt s o).second = false) : (IntervalSet.insertAt s o).set = s := by
  induction s with
  | nil => simp [IntervalSet.insertAt] at h
  | cons iv rest ih =>
    rw [insertAt_cons] at h ⊢
    split_ifs at h ⊢ with h1 h2 h3 h4
    · rfl
    · cases rest with
      | nil => simp at h
      | cons nx rest' =>
        dsimp only at h
        split_ifs at h
    · simp only at h
      simp only [ih h]

theorem insertAt_second_false_iff (s : IntervalSet) (o : Int) (h : IntervalSet.WF s) :
    (IntervalSet.insertAt s o).second = false ↔ IntervalSet.Covers s o := by
  induction s with
  | nil => simp [IntervalSet.insertAt, covers_nil]
  | cons iv rest ih =>
    obtain ⟨hle, hpw⟩ := h
    have hiv := hle iv (List.mem_cons_self _ _)
    have hrest : ∀ q ∈ rest, q.first ≤ q.second :=
      fun q hq => hle q (List.mem_cons_of_mem _ hq)
    rw [List.pairwise_cons] at hpw
    obtain ⟨hhd, htl⟩ := hpw
    have hlb : IntervalSet.Covers rest o → iv.second + 1 < o :=
      covers_lower_bound rest (iv.second + 1) o hhd
    rw [insertAt_cons, covers_cons]
    split_ifs with h1 h2 h3 h4
    · constructor
      · intro hf; simp at hf
      · rintro (hc | hc)
        · have := hc.1; omega
        · have := hlb hc; omega
    · constructor
      · intro hf; simp at hf
      · rintro (hc | hc)
        · have := hc.1; omega
        · have := hlb hc; omega
    · constructor
      · intro _; exact Or.inl ⟨by omega, h3⟩
      · intro _; rfl
    · have hno : ¬ (iv.Contains o ∨ IntervalSet.Covers rest o) := by
        rintro (hc | hc)
        · have := hc.2; omega
        · have := hlb hc; omega
      cases rest with
      | nil => simp only [Bool.true_eq_false, false_iff]; exact hno
      | cons nx rest' =>
        dsimp only; split_ifs <;> simp only [Bool.true_eq_false, false_iff] <;> exact hno
    · rw [ih ⟨hrest, htl⟩]
      constructor
      · intro hc; exact Or.inr hc
      · rintro (hc | hc)
        · have := hc.2; omega
        · exact hc

theorem erase_wf (s : IntervalSet) (key : Int) (h : IntervalSet.WF s) :
    IntervalSet.WF (IntervalSet.erase s key) :=
  ⟨fun q hq => h.1 q (List.mem_of_mem_filter hq), h.2.sublist (List.filter_sublist _)⟩

theorem erase_le (s : IntervalSet) (key : Int) (h : ∀ iv ∈ s, iv.first ≤ iv.second) :
    ∀ iv ∈ IntervalSet.erase s key, iv.first ≤ iv.second :=
  fun q hq => h q (List.mem_of_mem_filter hq)

theorem mem_erase (s : IntervalSet) (key : Int) (q : Range) :
    q ∈ IntervalSet.erase s key ↔ q ∈ s ∧ q.first ≠ key := by
  simp [IntervalSet.erase, List.mem_filter]

/-- Two different intervals of a well-formed container are disjoint and non-adjacent. -/
theorem wf_apart (s : IntervalSet) (h : IntervalSet.WF s) (p q : Range)
    (hp : p ∈ s) (hq : q ∈ s) (hne : p ≠ q) :
    p.second + 1 < q.first ∨ q.second + 1 < p.first := by
  have hsym : s.Pairwise (fun p q : Range => p.second + 1 < q.first ∨ q.second + 1 < p.first) :=
    h.2.imp (fun hpq => Or.inl hpq)
  exact hsym.forall (fun a b hab => hab.symm) hp hq hne

theorem erase_covers (s : IntervalSet) (h : IntervalSet.WF s) (iv : Range) (hiv : iv ∈ s)
    (x : Int) :
    IntervalSet.Covers (IntervalSet.erase s iv.first) x ↔
      IntervalSet.Covers s x ∧ ¬ iv.Contains x := by
  constructor
  · rintro ⟨q, hq, hqx⟩
    rw [mem_erase] at hq
    refine ⟨⟨q, hq.1, hqx⟩, ?_⟩
    intro hivx
    have hne : q ≠ iv := fun e => hq.2 (by rw [e])
    have := wf_apart s h q iv hq.1 hiv hne
    have := hqx.1; have := hqx.2; have := hivx.1; have := hivx.2
    omega
  · rintro ⟨⟨q, hq, hqx⟩, hn⟩
    refine ⟨q, (mem_erase s iv.first q).2 ⟨hq, ?_⟩, hqx⟩
    intro hk
    have hne : q ≠ iv := fun e => hn (e ▸ hqx)
    have := wf_apart s h q iv hq hiv hne
    have := h.1 q hq; have := h.1 iv hiv
    omega

/-- In a well-formed container at most one interval contains a given offset. -/
theorem wf_covers_unique (s : IntervalSet) (h : IntervalSet.WF s) (x : Int)
    (hc : IntervalSet.Covers s x) : ∃! iv, iv ∈ s ∧ iv.Contains x := by
  obtain ⟨p, hp, hpx⟩ := hc
  refine ⟨p, ⟨hp, hpx⟩, ?_⟩
  rintro q ⟨hq, hqx⟩
  by_contra hne
  have := wf_apart s h q p hq hp hne
  have := hpx.1; have := hpx.2; have := hqx.1; have := hqx.2
  omega

/-! ## The tracker -/

theorem setStartingOffset_offsets (offset : Int) (ranges : OffsetRanges) (committedOffset : Int)
    (watermark : OffsetWatermark) (autoResetAtEnd : Bool) :
    (setStartingOffset offset ranges committedOffset watermark autoResetAtEnd)._offsets =
      ranges._offsets := by
  unfold setStartingOffset
  split_ifs <;> rfl

theorem insertOffset_eq (ranges : OffsetRanges) (offset : Int) :
    insertOffset ranges offset =
      if (IntervalSet.insertAt ranges._offsets offset).second = true ∧
          (IntervalSet.insertAt ranges._offsets offset).first.first = ranges._currentOffset + 1 then
        (⟨ranges._beginOffset, (IntervalSet.insertAt ranges._offsets offset).first.second,
            IntervalSet.erase (IntervalSet.insertAt ranges._offsets offset).set
              (IntervalSet.insertAt ranges._offsets offset).first.first⟩,
          (IntervalSet.insertAt ranges._offsets offset).first)
      else
        (⟨ranges._beginOffset, ranges._currentOffset,
            (IntervalSet.insertAt ranges._offsets offset).set⟩, ⟨-1, -1⟩) := rfl

theorem acknowledge_eq (ranges : OffsetRanges) (offset : Int) :
    acknowledge ranges offset =
      if (IntervalSet.insertAt ranges._offsets offset).second = true ∧
          (IntervalSet.insertAt ranges._offsets offset).first.first = ranges._currentOffset + 1 then
        ⟨ranges._beginOffset, (IntervalSet.insertAt ranges._offsets offset).first.second,
            IntervalSet.erase (IntervalSet.insertAt ranges._offsets offset).set
              (IntervalSet.insertAt ranges._offsets offset).first.first⟩
      else
        ⟨ranges._beginOffset, ranges._currentOffset,
            (IntervalSet.insertAt ranges._offsets offset).set⟩ := by
  unfold acknowledge
  rw [insertOffset_eq]
  split_ifs <;> rfl

theorem acknowledge_le (r : OffsetRanges) (o : Int)
    (h : ∀ iv ∈ r._offsets, iv.first ≤ iv.second) :
    ∀ iv ∈ (acknowledge r o)._offsets, iv.first ≤ iv.second := by
  rw [acknowledge_eq]
  split_ifs
  · exact erase_le _ _ (insertAt_le _ _ h)
  · exact insertAt_le _ _ h

theorem acknowledge_wf (r : OffsetRanges) (o : Int) (h : IntervalSet.WF r._offsets) :
    IntervalSet.WF (acknowledge r o)._offsets := by
  rw [acknowledge_eq]
  split_ifs
  · exact erase_wf _ _ (insertAt_wf _ _ h)
  · exact insertAt_wf _ _ h

theorem acknowledge_mono (r : OffsetRanges) (o : Int)
    (h : ∀ iv ∈ r._offsets, iv.first ≤ iv.second) :
    r._currentOffset ≤ (acknowledge r o)._currentOffset := by
  rw [acknowledge_eq]
  split_ifs with hc
  · have := insertAt_le _ o h _ (insertAt_first_mem r._offsets o)
    show r._currentOffset ≤ (IntervalSet.insertAt r._offsets o).first.second
    omega
  · exact le_refl _

/-- An offset that was below the watermark, inside an interval, or is the one being
acknowledged, is below the watermark or inside an interval afterwards. -/
theorem acknowledge_keeps (r : OffsetRanges) (o x : Int) (h : IntervalSet.WF r._offsets)
    (hx : x ≤ r._currentOffset ∨ IntervalSet.Covers r._offsets x ∨ x = o) :
    x ≤ (acknowledge r o)._currentOffset ∨ IntervalSet.Covers (acknowledge r o)._offsets x := by
  have hcov := insertAt_covers r._offsets o h x
  rw [acknowledge_eq]
  split_ifs with hc
  · have hle := insertAt_le _ o h.1 _ (insertAt_first_mem r._offsets o)
    rcases hx with hx | hx
    · left
      show x ≤ (IntervalSet.insertAt r._offsets o).first.second
      omega
    · by_cases hin : (IntervalSet.insertAt r._offsets o).first.Contains x
      · left; exact hin.2
      · right
        exact (erase_covers _ (insertAt_wf _ _ h) _ (insertAt_first_mem r._offsets o) x).2
          ⟨hcov.2 hx, hin⟩
  · rcases hx with hx | hx
    · exact Or.inl hx
    · exact Or.inr (hcov.2 hx)

/-- Acknowledging an offset that is below the watermark or inside an interval leaves the
watermark where it is. -/
theorem acknowledge_contained_current (r : OffsetRanges) (o : Int)
    (h : IntervalSet.WF r._offsets)
    (hx : o ≤ r._currentOffset ∨ IntervalSet.Covers r._offsets o) :
    (acknowledge r o)._currentOffset = r._currentOffset := by
  rw [acknowledge_eq]
  split_ifs with hc
  · exfalso
    rcases hx with hx | hx
    · have := (insertAt_first_contains r._offsets o h.1).1
      omega
    · have := (insertAt_second_false_iff r._offsets o h).2 hx
      rw [this] at hc
      exact Bool.false_ne_true hc.1
  · rfl

theorem acknowledge_twice (r : OffsetRanges) (o : Int) (h : IntervalSet.WF r._offsets) :
    (acknowledge (acknowledge r o) o)._currentOffset = (acknowledge r o)._currentOffset :=
  acknowledge_contained_current _ o (acknowledge_wf r o h)
    (acknowledge_keeps r o o h (Or.inr (Or.inr rfl)))

theorem acknowledgeAll_cons (r : OffsetRanges) (o : Int) (acks : List Int) :
    acknowledgeAll r (o :: acks) = acknowledgeAll (acknowledge r o) acks := rfl

theorem acknowledgeAll_wf (acks : List Int) :
    ∀ r : OffsetRanges, IntervalSet.WF r._offsets →
      IntervalSet.WF (acknowledgeAll r acks)._offsets := by
  induction acks with
  | nil => intro r h; exact h
  | cons o acks ih =>
    intro r h
    rw [acknowledgeAll_cons]
    exact ih _ (acknowledge_wf r o h)

theorem acknowledgeAll_keeps (acks : List Int) :
    ∀ (r : OffsetRanges) (P : Int → Prop), IntervalSet.WF r._offsets →
      (∀ x, P x → x ≤ r._currentOffset ∨ IntervalSet.Covers r._offsets x) →
      ∀ x, P x ∨ x ∈ acks →
        x ≤ (acknowledgeAll r acks)._currentOffset ∨
          IntervalSet.Covers (acknowledgeAll r acks)._offsets x := by
  induction acks with
  | nil =>
    intro r P _ hP x hx
    rcases hx with hx | hx
    · exact hP x hx
    · simp at hx
  | cons o acks ih =>
    intro r P h hP x hx
    rw [acknowledgeAll_cons]
    refine ih (acknowledge r o) (fun y => P y ∨ y = o) (acknowledge_wf r o h) ?_ x ?_
    · intro y hy
      rcases hy with hy | hy
      · rcases hP y hy with h1 | h1
        · exact acknowledge_keeps r o y h (Or.inl h1)
        · exact acknowledge_keeps r o y h (Or.inr (Or.inl h1))
      · exact acknowledge_keeps r o y h (Or.inr (Or.inr hy))
    · rcases hx with hx | hx
      · exact Or.inl (Or.inl hx)
      · simp only [List.mem_cons] at hx
        rcases hx with hx | hx
        · exact Or.inl (Or.inr hx)
        · exact Or.inr hx

theorem wf_nil : IntervalSet.WF [] := by
  simp [IntervalSet.WF]

theorem reachable_wf (r : OffsetRanges) (h : Reachable r) : IntervalSet.WF r._offsets := by
  obtain ⟨offset, b0, c0, committedOffset, watermark, autoResetAtEnd, acks, rfl⟩ := h
  apply acknowledgeAll_wf
  rw [setStartingOffset_offsets]
  exact wf_nil

theorem trace_chain (acks : List Int) :
    ∀ r : OffsetRanges, (∀ iv ∈ r._offsets, iv.first ≤ iv.second) →
      List.Chain (fun a b => a ≤ b) r._currentOffset (currentOffsetTrace r acks) := by
  induction acks with
  | nil => intro r _; exact List.Chain.nil
  | cons o acks ih =>
    intro r h
    exact List.Chain.cons (acknowledge_mono r o h) (ih _ (acknowledge_le r o h))

theorem acknowledge_invariant (r : OffsetRanges) (o : Int) (h : TrackerInvariant r)
    (ho : r._currentOffset < o) : TrackerInvariant (acknowledge r o) := by
  obtain ⟨hwf, hgt⟩ := h
  refine ⟨acknowledge_wf r o hwf, ?_⟩
  have hcov := insertAt_covers r._offsets o hwf
  have hwf' := insertAt_wf r._offsets o hwf
  have hmem := insertAt_first_mem r._offsets o
  rw [acknowledge_eq]
  split_ifs with hc
  · intro x hx
    show (IntervalSet.insertAt r._offsets o).first.second < x
    obtain ⟨q, hq, hqx⟩ := hx
    rw [mem_erase] at hq
    have hne : q ≠ (IntervalSet.insertAt r._offsets o).first := fun e => hq.2 (by rw [e])
    have hap := wf_apart _ hwf' q _ hq.1 hmem hne
    have hqle := hwf'.1 q hq.1
    have hqf : r._currentOffset < q.first := by
      have hcq : IntervalSet.Covers (IntervalSet.insertAt r._offsets o).set q.first :=
        ⟨q, hq.1, ⟨le_refl _, hqle⟩⟩
      rcases (hcov q.first).1 hcq with h1 | h1
      · exact hgt _ h1
      · omega
    have := hqx.1
    have := hc.2
    omega
  · intro x hx
    show r._currentOffset < x
    rcases (hcov x).1 hx with h1 | h1
    · exact hgt x h1
    · omega

/-! ## The claims -/

/-- C1, evaluated at the claimed witness: the tracker assigned at BEGINNING on a partition
with low watermark 100 has begin offset 100 and current offset 100, and acknowledging
102, 100, 103, 101 leaves the current offset at 100 after every acknowledgment (not at
99, 100, 100, 103), with the four offsets kept as the stored interval [100, 103]; the
claimed trace is what `insertOffset` yields from begin offset 100 with current offset 99,
a state `setStartingOffset` does not produce. -/
theorem C1_trace_at_witness :
    trackerAt100._beginOffset = 100 ∧ trackerAt100._currentOffset = 100 ∧
    currentOffsetTrace trackerAt100 [102, 100, 103, 101] = [100, 100, 100, 100] ∧
    (acknowledgeAll trackerAt100 [102, 100, 103, 101])._offsets = [⟨100, 103⟩] ∧
    currentOffsetTrace ⟨100, 99, []⟩ [102, 100, 103, 101] = [99, 100, 100, 103] := by
  decide

/-- C2: `insertOffset` inserts the offset into the interval set (on a well-formed set the
result is well-formed again, i.e. adjacent intervals are merged, it covers exactly the old
offsets and the new one, and the set changed exactly when the flag says so); when the
insertion changed the set and the resulting interval starts at `_currentOffset + 1`, the
current offset becomes that interval's end, the interval is erased and [first, last] is
returned; in every other case the current offset is unchanged and (-1, -1) is returned. -/
theorem C2_insertOffset_behaviour (ranges : OffsetRanges) (offset : Int) :
    let it := IntervalSet.insert ranges._offsets ⟨offset⟩
    (IntervalSet.WF ranges._offsets →
      IntervalSet.WF it.set ∧ it.first ∈ it.set ∧ it.first.Contains offset ∧
      (∀ x, IntervalSet.Covers it.set x ↔ IntervalSet.Covers ranges._offsets x ∨ x = offset) ∧
      (it.second = true ↔ it.set ≠ ranges._offsets) ∧
      (∀ x, IntervalSet.Covers (IntervalSet.erase it.set it.first.first) x ↔
          IntervalSet.Covers it.set x ∧ ¬ it.first.Contains x)) ∧
    (it.second = true ∧ it.first.first = ranges._currentOffset + 1 →
      insertOffset ranges offset =
        (⟨ranges._beginOffset, it.first.second, IntervalSet.erase it.set it.first.first⟩,
          ⟨it.first.first, it.first.second⟩)) ∧
    (¬ (it.second = true ∧ it.first.first = ranges._currentOffset + 1) →
      insertOffset ranges offset =
        (⟨ranges._beginOffset, ranges._currentOffset, it.set⟩, ⟨-1, -1⟩)) := by
  intro it
  refine ⟨fun hwf => ?_, fun hc => ?_, fun hc => ?_⟩
  · have hwf' : IntervalSet.WF it.set := insertAt_wf _ _ hwf
    have hmem : it.first ∈ it.set := insertAt_first_mem _ _
    have hcon : it.first.Contains offset := insertAt_first_contains _ _ hwf.1
    refine ⟨hwf', hmem, hcon, insertAt_covers _ _ hwf, ?_, erase_covers _ hwf' _ hmem⟩
    constructor
    · intro ht heq
      have hnot : ¬ IntervalSet.Covers ranges._offsets offset := by
        intro hcov
        have hf : it.second = false := (insertAt_second_false_iff _ _ hwf).2 hcov
        rw [hf] at ht
        exact Bool.false_ne_true ht
      exact hnot (heq ▸ ⟨it.first, hmem, hcon⟩)
    · intro hne
      by_contra ht
      exact hne (insertAt_second_false_set _ _ (by simpa using ht))
  · exact (insertOffset_eq ranges offset).trans (if_pos hc)
  · exact (insertOffset_eq ranges offset).trans (if_neg hc)

/-- C2, instance: on the tracker with current offset 100 holding [102, 103], acknowledging
101 merges it into [101, 103], which starts at 101 and is absorbed. -/
theorem C2_insertOffset_behaviour_witness :
    IntervalSet.WF [(⟨102, 103⟩ : Range)] ∧
    insertOffset ⟨100, 100, [⟨102, 103⟩]⟩ 101 = (⟨100, 103, []⟩, ⟨101, 103⟩) ∧
    (∀ x, IntervalSet.Covers
        (IntervalSet.insert [(⟨102, 103⟩ : Range)] ⟨101⟩).set x ↔
          IntervalSet.Covers [(⟨102, 103⟩ : Range)] x ∨ x = 101) :=
  ⟨by decide,
    (C2_insertOffset_behaviour ⟨100, 100, [⟨102, 103⟩]⟩ 101).2.1 (by decide),
    ((C2_insertOffset_behaviour ⟨100, 100, [⟨102, 103⟩]⟩ 101).1 (by decide)).2.2.2.1⟩

/-- C3, evaluated at a failing input: on the tracker assigned at BEGINNING with low
watermark 100 (begin offset 100), the first acknowledgment, of offset 101, returns the
committable range [101, 101] and moves the current offset to 101 although offset 100 was
never acknowledged. -/
theorem C3_commit_skips_begin :
    trackerAt100._beginOffset = 100 ∧
    insertOffset trackerAt100 101 = (⟨100, 101, []⟩, ⟨101, 101⟩) ∧
    (100 : Int) ∉ [(101 : Int)] := by
  decide

/-- C4, evaluated at the claimed witness: after assigning at BEGINNING with watermarks
low = 100 and high = 110 and acknowledging 100, 101, ..., 109 in increasing order, the
current offset is still 100 and the interval [100, 109] is still stored. -/
theorem C4_in_order_from_beginning :
    acknowledgeAll trackerAt100 [100, 101, 102, 103, 104, 105, 106, 107, 108, 109] =
      ⟨100, 100, [⟨100, 109⟩]⟩ ∧
    ¬ ((109 : Int) ≤
      (acknowledgeAll trackerAt100
        [100, 101, 102, 103, 104, 105, 106, 107, 108, 109])._currentOffset) := by
  decide

/-- C5: on a tracker whose intervals have `first ≤ second`, the current offset after
`insertOffset` is at least the current offset before it, and over any sequence of
acknowledgments the successive current offsets never decrease. -/
theorem C5_currentOffset_never_decreases (ranges : OffsetRanges)
    (hwf : ∀ iv ∈ ranges._offsets, iv.first ≤ iv.second) :
    (∀ offset : Int, ranges._currentOffset ≤ (insertOffset ranges offset).1._currentOffset) ∧
    (∀ acks : List Int,
      List.Chain (fun a b => a ≤ b) ranges._currentOffset (currentOffsetTrace ranges acks)) :=
  ⟨fun offset => acknowledge_mono ranges offset hwf, fun acks => trace_chain acks ranges hwf⟩

/-- C5, instance: the tracker with current offset 100 holding [102, 103]. -/
theorem C5_currentOffset_never_decreases_witness :
    (∀ iv ∈ [(⟨102, 103⟩ : Range)], iv.first ≤ iv.second) ∧
    (100 : Int) ≤ (insertOffset ⟨100, 100, [⟨102, 103⟩]⟩ 101).1._currentOffset ∧
    List.Chain (fun a b : Int => a ≤ b) 100
      (currentOffsetTrace ⟨100, 100, [⟨102, 103⟩]⟩ [105, 101, 104]) :=
  ⟨by decide,
    (C5_currentOffset_never_decreases ⟨100, 100, [⟨102, 103⟩]⟩ (by decide)).1 101,
    (C5_currentOffset_never_decreases ⟨100, 100, [⟨102, 103⟩]⟩ (by decide)).2 [105, 101, 104]⟩

/-- C6: on every tracker state reachable from an initialised tracker by acknowledgments,
acknowledging an offset twice in a row yields the same current offset as acknowledging
it once. -/
theorem C6_acknowledge_twice (r : OffsetRanges) (h : Reachable r) (o : Int) :
    (acknowledge (acknowledge r o) o)._currentOffset = (acknowledge r o)._currentOffset :=
  acknowledge_twice r o (reachable_wf r h)

/-- C6, instance: after assigning at 100 and acknowledging 102, acknowledging 101 twice. -/
theorem C6_acknowledge_twice_witness :
    Reachable (acknowledgeAll trackerAt100 [102]) ∧
    (acknowledge (acknowledge (acknowledgeAll trackerAt100 [102]) 101) 101)._currentOffset =
      (acknowledge (acknowledgeAll trackerAt100 [102]) 101)._currentOffset :=
  ⟨⟨OFFSET_BEGINNING, OFFSET_INVALID, OFFSET_INVALID, OFFSET_INVALID, ⟨0, 100, 110⟩, true,
      [102], rfl⟩,
    C6_acknowledge_twice _
      ⟨OFFSET_BEGINNING, OFFSET_INVALID, OFFSET_INVALID, OFFSET_INVALID, ⟨0, 100, 110⟩, true,
        [102], rfl⟩ 101⟩

/-- C7 fails as stated: on the tracker reached by assigning at 100 and acknowledging 101
(current offset 101, no interval), offset 101 is at most the current offset, yet
`insertOffset` of 101 is not a no-op. -/
theorem C7_counterexample :
    ¬ ((101 : Int) ≤ (acknowledge trackerAt100 101)._currentOffset →
        insertOffset (acknowledge trackerAt100 101) 101 =
          (acknowledge trackerAt100 101, ⟨-1, -1⟩)) := by
  decide

/-- C7 as amended: on a tracker with a well-formed interval set, `insertOffset` of an
offset inside a stored interval is a no-op (empty result, tracker unchanged); of an offset
that is at most the current offset it returns the empty result and leaves the current and
begin offsets unchanged, and when that offset is in no stored interval it is added to the
interval set, which therefore changes. -/
theorem C7_contained_offset (ranges : OffsetRanges) (offset : Int)
    (hwf : IntervalSet.WF ranges._offsets) :
    (IntervalSet.Covers ranges._offsets offset →
      insertOffset ranges offset = (ranges, ⟨-1, -1⟩)) ∧
    (offset ≤ ranges._currentOffset →
      (insertOffset ranges offset).2 = ⟨-1, -1⟩ ∧
      (insertOffset ranges offset).1._currentOffset = ranges._currentOffset ∧
      (insertOffset ranges offset).1._beginOffset = ranges._beginOffset ∧
      (¬ IntervalSet.Covers ranges._offsets offset →
        IntervalSet.Covers (insertOffset ranges offset).1._offsets offset ∧
        (insertOffset ranges offset).1._offsets ≠ ranges._offsets)) := by
  have hcon := insertAt_first_contains ranges._offsets offset hwf.1
  have hmem := insertAt_first_mem ranges._offsets offset
  constructor
  · intro hcov
    have hf := (insertAt_second_false_iff _ _ hwf).2 hcov
    have hs := insertAt_second_false_set _ _ hf
    rw [insertOffset_eq, if_neg (by rw [hf]; simp), hs]
  · intro hle
    have hneg : ¬ ((IntervalSet.insertAt ranges._offsets offset).second = true ∧
        (IntervalSet.insertAt ranges._offsets offset).first.first =
          ranges._currentOffset + 1) := by
      rintro ⟨_, h2⟩
      have := hcon.1
      omega
    rw [insertOffset_eq, if_neg hneg]
    refine ⟨rfl, rfl, rfl, fun hnc => ?_⟩
    have hcov : IntervalSet.Covers (IntervalSet.insertAt ranges._offsets offset).set offset :=
      ⟨_, hmem, hcon⟩
    exact ⟨hcov, fun heq => hnc (heq ▸ hcov)⟩

/-- C7 as amended, instance: the tracker with current offset 101 holding [105, 107]; offset
106 is inside the interval, offset 101 is at most the current offset. -/
theorem C7_contained_offset_witness :
    IntervalSet.WF [(⟨105, 107⟩ : Range)] ∧
    insertOffset ⟨100, 101, [⟨105, 107⟩]⟩ 106 = (⟨100, 101, [⟨105, 107⟩]⟩, ⟨-1, -1⟩) ∧
    (insertOffset ⟨100, 101, [⟨105, 107⟩]⟩ 101).2 = ⟨-1, -1⟩ ∧
    (insertOffset ⟨100, 101, [⟨105, 107⟩]⟩ 101).1._currentOffset = 101 :=
  ⟨by decide,
    (C7_contained_offset ⟨100, 101, [⟨105, 107⟩]⟩ 106 (by decide)).1 (by decide),
    ((C7_contained_offset ⟨100, 101, [⟨105, 107⟩]⟩ 101 (by decide)).2 (by decide)).1,
    ((C7_contained_offset ⟨100, 101, [⟨105, 107⟩]⟩ 101 (by decide)).2 (by decide)).2.1⟩

/-- C8 fails as stated: the tracker reached by assigning at 100 and acknowledging 101
satisfies the invariant, and acknowledging 101 once more stores the interval [101, 101],
whose offset is not greater than the current offset 101. -/
theorem C8_counterexample :
    TrackerInvariant (acknowledge trackerAt100 101) ∧
    ¬ TrackerInvariant (acknowledge (acknowledge trackerAt100 101) 101) := by
  have e1 : acknowledge trackerAt100 101 = ⟨100, 101, []⟩ := by decide
  have e2 : acknowledge (acknowledge trackerAt100 101) 101 = ⟨100, 101, [⟨101, 101⟩]⟩ := by
    decide
  rw [e2, e1]
  constructor
  · exact ⟨wf_nil, fun x hx => absurd hx (by simp [covers_nil])⟩
  · intro h
    have h101 : (101 : Int) < 101 :=
      h.2 101 ⟨⟨101, 101⟩, by simp, ⟨le_refl _, le_refl _⟩⟩
    exact absurd h101 (by decide)

/-- C8 as amended: the invariant (intervals pairwise disjoint and non-adjacent, every
offset they contain greater than the current offset) holds after `setStartingOffset` on a
newly constructed tracker; `insertOffset` preserves it for every acknowledged offset that
is greater than the current offset; and for every offset it preserves the part saying the
intervals are pairwise disjoint and non-adjacent. -/
theorem C8_invariant :
    (∀ (offset b0 c0 committedOffset : Int) (watermark : OffsetWatermark)
        (autoResetAtEnd : Bool),
      TrackerInvariant
        (setStartingOffset offset (freshRanges b0 c0) committedOffset watermark
          autoResetAtEnd)) ∧
    (∀ (r : OffsetRanges) (o : Int), TrackerInvariant r → r._currentOffset < o →
      TrackerInvariant (insertOffset r o).1) ∧
    (∀ (r : OffsetRanges) (o : Int), IntervalSet.WF r._offsets →
      IntervalSet.WF (insertOffset r o).1._offsets) := by
  refine ⟨?_, fun r o h ho => acknowledge_invariant r o h ho,
    fun r o h => acknowledge_wf r o h⟩
  intro offset b0 c0 committedOffset watermark autoResetAtEnd
  unfold TrackerInvariant
  rw [setStartingOffset_offsets]
  exact ⟨wf_nil, fun x hx => absurd hx (by simp [freshRanges, covers_nil])⟩

/-- C8 as amended, instance: the tracker assigned at 100 satisfies the invariant, and so
does the tracker after acknowledging 102, which is greater than its current offset. -/
theorem C8_invariant_witness :
    TrackerInvariant trackerAt100 ∧ trackerAt100._currentOffset < 102 ∧
    TrackerInvariant (insertOffset trackerAt100 102).1 :=
  ⟨C8_invariant.1 _ _ _ _ _ _, by decide,
    C8_invariant.2.1 trackerAt100 102 (C8_invariant.1 _ _ _ _ _ _) (by decide)⟩

/-- C9: for every initialised tracker and every sequence of acknowledgments, each offset
acknowledged so far is at most the current offset or lies inside exactly one stored
interval. -/
theorem C9_no_acknowledgment_lost (offset b0 c0 committedOffset : Int)
    (watermark : OffsetWatermark) (autoResetAtEnd : Bool) (acks : List Int) (x : Int)
    (hx : x ∈ acks) :
    x ≤ (acknowledgeAll
          (setStartingOffset offset (freshRanges b0 c0) committedOffset watermark
            autoResetAtEnd) acks)._currentOffset ∨
      ∃! iv, iv ∈ (acknowledgeAll
          (setStartingOffset offset (freshRanges b0 c0) committedOffset watermark
            autoResetAtEnd) acks)._offsets ∧ iv.Contains x := by
  have hwf0 : IntervalSet.WF
      (setStartingOffset offset (freshRanges b0 c0) committedOffset watermark
        autoResetAtEnd)._offsets := by
    rw [setStartingOffset_offsets]
    exact wf_nil
  rcases acknowledgeAll_keeps acks _ (fun _ => False) hwf0 (fun _ hf => hf.elim) x
      (Or.inr hx) with h | h
  · exact Or.inl h
  · exact Or.inr (wf_covers_unique _ (acknowledgeAll_wf acks _ hwf0) x h)

/-- C9, instance: after assigning at 100 and acknowledging 102, 105, 101, 106, the offset
105 is inside exactly one stored interval (the current offset is 102). -/
theorem C9_no_acknowledgment_lost_witness :
    (105 : Int) ∈ [(102 : Int), 105, 101, 106] ∧
    ((105 : Int) ≤ (acknowledgeAll
          (setStartingOffset OFFSET_BEGINNING (freshRanges OFFSET_INVALID OFFSET_INVALID)
            OFFSET_INVALID ⟨0, 100, 110⟩ true) [102, 105, 101, 106])._currentOffset ∨
      ∃! iv, iv ∈ (acknowledgeAll
          (setStartingOffset OFFSET_BEGINNING (freshRanges OFFSET_INVALID OFFSET_INVALID)
            OFFSET_INVALID ⟨0, 100, 110⟩ true) [102, 105, 101, 106])._offsets ∧
        iv.Contains 105) :=
  ⟨by decide,
    C9_no_acknowledgment_lost OFFSET_BEGINNING OFFSET_INVALID OFFSET_INVALID OFFSET_INVALID
      ⟨0, 100, 110⟩ true [102, 105, 101, 106] 105 (by decide)⟩

/-- The private helper `insertOffset` by itself has no lower bound on the offset: below the
begin offset it stores the offset and returns the empty range. -/
theorem insertOffset_below_begin_stores :
    insertOffset trackerAt100 99 = (⟨100, 100, [⟨99, 99⟩]⟩, ⟨-1, -1⟩) := by
  decide

/-- C10: for every tracker and every offset strictly less than the begin offset, saving the
offset is rejected with the invalid-argument error and the tracker is left as it was. -/
theorem C10_below_begin_rejected (ranges : OffsetRanges) (offset : Int)
    (h : offset < ranges._beginOffset) :
    (saveOffset ranges offset).1 = ErrorKind.InvalidArgument ∧
    (saveOffset ranges offset).2.1 = ranges := by
  unfold saveOffset saveOffsetImpl
  rw [if_pos h]
  exact ⟨rfl, rfl⟩

/-- C10, instance: on the tracker assigned at 100, saving offset 99 (begin offset - 1). -/
theorem C10_below_begin_rejected_witness :
    (99 : Int) < trackerAt100._beginOffset ∧
    (saveOffset trackerAt100 99).1 = ErrorKind.InvalidArgument ∧
    (saveOffset trackerAt100 99).2.1 = trackerAt100 :=
  ⟨by decide, C10_below_begin_rejected trackerAt100 99 (by decide)⟩

/-! ## The starting offset and the begin offset -/

theorem acknowledge_begin (r : OffsetRanges) (o : Int) :
    (acknowledge r o)._beginOffset = r._beginOffset := by
  rw [acknowledge_eq]
  split_ifs <;> rfl

theorem acknowledgeAll_begin (acks : List Int) :
    ∀ r : OffsetRanges, (acknowledgeAll r acks)._beginOffset = r._beginOffset := by
  induction acks with
  | nil => intro r; rfl
  | cons o acks ih =>
    intro r
    rw [acknowledgeAll_cons, ih, acknowledge_begin]

/-- The tracker after a STORED or an INVALID request. -/
theorem stored_or_invalid (ranges : OffsetRanges) (committedOffset : Int)
    (watermark : OffsetWatermark) (autoResetAtEnd : Bool)
    (hvalid : watermark._partition ≠ RD_KAFKA_PARTITION_UA) :
    setStartingOffset OFFSET_STORED ranges committedOffset watermark autoResetAtEnd =
      ⟨(if committedOffset ≥ 0 then committedOffset
          else if autoResetAtEnd = true then watermark._high else watermark._low),
        (if committedOffset ≥ 0 then committedOffset
          else if autoResetAtEnd = true then watermark._high else watermark._low),
        ranges._offsets⟩ ∧
    setStartingOffset OFFSET_INVALID ranges committedOffset watermark autoResetAtEnd =
      ⟨(if committedOffset ≥ 0 then committedOffset
          else if autoResetAtEnd = true then watermark._high else watermark._low),
        (if committedOffset ≥ 0 then committedOffset
          else if autoResetAtEnd = true then watermark._high else watermark._low),
        ranges._offsets⟩ := by
  have hboth : ∀ o : Int, (o = OFFSET_STORED ∨ o = OFFSET_INVALID) →
      setStartingOffset o ranges committedOffset watermark autoResetAtEnd =
        ⟨(if committedOffset ≥ 0 then committedOffset
            else if autoResetAtEnd = true then watermark._high else watermark._low),
          (if committedOffset ≥ 0 then committedOffset
            else if autoResetAtEnd = true then watermark._high else watermark._low),
          ranges._offsets⟩ := by
    intro o ho
    unfold setStartingOffset
    rw [if_neg hvalid, if_pos ho]
    split_ifs <;> rfl
  exact ⟨hboth _ (Or.inl rfl), hboth _ (Or.inr rfl)⟩

/-- The tracker after a BEGINNING or an END request. -/
theorem beginning_and_end (ranges : OffsetRanges) (committedOffset : Int)
    (watermark : OffsetWatermark) (autoResetAtEnd : Bool)
    (hvalid : watermark._partition ≠ RD_KAFKA_PARTITION_UA) :
    setStartingOffset OFFSET_BEGINNING ranges committedOffset watermark autoResetAtEnd =
      ⟨watermark._low, watermark._low, ranges._offsets⟩ ∧
    setStartingOffset OFFSET_END ranges committedOffset watermark autoResetAtEnd =
      ⟨watermark._high, watermark._high, ranges._offsets⟩ := by
  constructor
  · unfold setStartingOffset
    rw [if_neg hvalid, if_neg (by decide), if_pos rfl]
  · unfold setStartingOffset
    rw [if_neg hvalid, if_neg (by decide), if_neg (by decide), if_pos rfl]

/-- C12: with a valid watermark, a requested offset STORED or INVALID sets the begin and
current offsets to the committed offset when that is at least 0, otherwise to the high
watermark when `autoResetAtEnd` is true and to the low watermark when it is false; STORED
and INVALID give the same tracker. -/
theorem C12_stored_or_invalid (ranges : OffsetRanges) (committedOffset : Int)
    (watermark : OffsetWatermark) (autoResetAtEnd : Bool)
    (hvalid : watermark._partition ≠ RD_KAFKA_PARTITION_UA) :
    setStartingOffset OFFSET_STORED ranges committedOffset watermark autoResetAtEnd =
      ⟨(if committedOffset ≥ 0 then committedOffset
          else if autoResetAtEnd = true then watermark._high else watermark._low),
        (if committedOffset ≥ 0 then committedOffset
          else if autoResetAtEnd = true then watermark._high else watermark._low),
        ranges._offsets⟩ ∧
    setStartingOffset OFFSET_INVALID ranges committedOffset watermark autoResetAtEnd =
      setStartingOffset OFFSET_STORED ranges committedOffset watermark autoResetAtEnd := by
  have h := stored_or_invalid ranges committedOffset watermark autoResetAtEnd hvalid
  exact ⟨h.1, h.2.trans h.1.symm⟩

/-- C12, instance: watermarks low = 100 and high = 110, nothing committed (-1001),
`autoResetAtEnd` true: the tracker starts at 110. -/
theorem C12_stored_or_invalid_witness :
    (0 : Int) ≠ RD_KAFKA_PARTITION_UA ∧
    setStartingOffset OFFSET_STORED (freshRanges OFFSET_INVALID OFFSET_INVALID) (-1001)
        ⟨0, 100, 110⟩ true = ⟨110, 110, []⟩ ∧
    setStartingOffset OFFSET_INVALID (freshRanges OFFSET_INVALID OFFSET_INVALID) (-1001)
        ⟨0, 100, 110⟩ true =
      setStartingOffset OFFSET_STORED (freshRanges OFFSET_INVALID OFFSET_INVALID) (-1001)
        ⟨0, 100, 110⟩ true :=
  ⟨by decide,
    C12_stored_or_invalid (freshRanges OFFSET_INVALID OFFSET_INVALID) (-1001) ⟨0, 100, 110⟩
      true (by decide)⟩

/-- C13: with a valid watermark, a requested offset BEGINNING sets the begin and current
offsets to the low watermark and END sets them to the high watermark, whatever the
committed offset and `autoResetAtEnd` are. -/
theorem C13_beginning_and_end (ranges : OffsetRanges) (committedOffset : Int)
    (watermark : OffsetWatermark) (autoResetAtEnd : Bool)
    (hvalid : watermark._partition ≠ RD_KAFKA_PARTITION_UA) :
    setStartingOffset OFFSET_BEGINNING ranges committedOffset watermark autoResetAtEnd =
      ⟨watermark._low, watermark._low, ranges._offsets⟩ ∧
    setStartingOffset OFFSET_END ranges committedOffset watermark autoResetAtEnd =
      ⟨watermark._high, watermark._high, ranges._offsets⟩ :=
  beginning_and_end ranges committedOffset watermark autoResetAtEnd hvalid

/-- C13, instance: watermarks low = 100 and high = 110 with committed offset 105. -/
theorem C13_beginning_and_end_witness :
    (0 : Int) ≠ RD_KAFKA_PARTITION_UA ∧
    setStartingOffset OFFSET_BEGINNING (freshRanges OFFSET_INVALID OFFSET_INVALID) 105
        ⟨0, 100, 110⟩ true = ⟨100, 100, []⟩ ∧
    setStartingOffset OFFSET_END (freshRanges OFFSET_INVALID OFFSET_INVALID) 105
        ⟨0, 100, 110⟩ false = ⟨110, 110, []⟩ :=
  ⟨by decide,
    (C13_beginning_and_end (freshRanges OFFSET_INVALID OFFSET_INVALID) 105 ⟨0, 100, 110⟩
      true (by decide)).1,
    (C13_beginning_and_end (freshRanges OFFSET_INVALID OFFSET_INVALID) 105 ⟨0, 100, 110⟩
      false (by decide)).2⟩

/-- The tracker after a TAIL request below the tail base. -/
theorem setStartingOffset_tail (offset : Int) (ranges : OffsetRanges) (committedOffset : Int)
    (watermark : OffsetWatermark) (autoResetAtEnd : Bool)
    (hvalid : watermark._partition ≠ RD_KAFKA_PARTITION_UA)
    (htail : offset < RD_KAFKA_OFFSET_TAIL_BASE) :
    setStartingOffset offset ranges committedOffset watermark autoResetAtEnd =
      ⟨watermark._high - (RD_KAFKA_OFFSET_TAIL_BASE - offset),
        watermark._high - (RD_KAFKA_OFFSET_TAIL_BASE - offset), ranges._offsets⟩ := by
  have h2000 : RD_KAFKA_OFFSET_TAIL_BASE = -2000 := rfl
  have h1 : ¬ (offset = OFFSET_STORED ∨ offset = OFFSET_INVALID) := by
    have e1 : OFFSET_STORED = -1000 := rfl
    have e2 : OFFSET_INVALID = -1001 := rfl
    omega
  have h2 : ¬ offset = OFFSET_BEGINNING := by
    have e1 : OFFSET_BEGINNING = -2 := rfl
    omega
  have h3 : ¬ offset = OFFSET_END := by
    have e1 : OFFSET_END = -1 := rfl
    omega
  unfold setStartingOffset
  rw [if_neg hvalid, if_neg h1, if_neg h2, if_neg h3, if_pos htail]

/-- The tracker is left as it is by every request at or above the tail base that is not
one of the four named requests. -/
theorem setStartingOffset_other (offset : Int) (ranges : OffsetRanges) (committedOffset : Int)
    (watermark : OffsetWatermark) (autoResetAtEnd : Bool)
    (h1 : offset ≠ OFFSET_STORED) (h2 : offset ≠ OFFSET_INVALID)
    (h3 : offset ≠ OFFSET_BEGINNING) (h4 : offset ≠ OFFSET_END)
    (h5 : ¬ offset < RD_KAFKA_OFFSET_TAIL_BASE) :
    setStartingOffset offset ranges committedOffset watermark autoResetAtEnd = ranges := by
  unfold setStartingOffset
  by_cases hv : watermark._partition = RD_KAFKA_PARTITION_UA
  · rw [if_pos hv]
  · rw [if_neg hv, if_neg (by rintro (h | h) <;> contradiction), if_neg h3, if_neg h4,
      if_neg h5]

/-- The request TAIL(0), which is the tail base itself, is not below the tail base: the
tracker is left as it was. -/
theorem setStartingOffset_tail_zero (ranges : OffsetRanges) (committedOffset : Int)
    (watermark : OffsetWatermark) (autoResetAtEnd : Bool) :
    setStartingOffset RD_KAFKA_OFFSET_TAIL_BASE ranges committedOffset watermark
      autoResetAtEnd = ranges :=
  setStartingOffset_other _ ranges committedOffset watermark autoResetAtEnd
    (by decide) (by decide) (by decide) (by decide) (by decide)

/-- C14 fails as stated: with watermarks low = 100 and high = 110, the request TAIL(20)
starts the tracker at 90, below the low watermark, while the clamped value is 100. -/
theorem C14_counterexample :
    (setStartingOffset (RD_KAFKA_OFFSET_TAIL_BASE - 20)
        (freshRanges OFFSET_INVALID OFFSET_INVALID) OFFSET_INVALID ⟨0, 100, 110⟩
        true)._beginOffset = 90 ∧
    (setStartingOffset (RD_KAFKA_OFFSET_TAIL_BASE - 20)
        (freshRanges OFFSET_INVALID OFFSET_INVALID) OFFSET_INVALID ⟨0, 100, 110⟩
        true)._beginOffset ≠ max (100 : Int) (min 110 (110 - 20)) := by
  decide

/-- C14 as amended: with a valid watermark and n ≥ 1, the request
TAIL(n) = TAIL_BASE - n sets the begin and current offsets to high - n without clamping;
that value is max(low, min(high, high - n)) exactly when high - n ≥ low. -/
theorem C14_tail_not_clamped (ranges : OffsetRanges) (committedOffset : Int)
    (watermark : OffsetWatermark) (autoResetAtEnd : Bool) (n : Int)
    (hvalid : watermark._partition ≠ RD_KAFKA_PARTITION_UA) (hn : 1 ≤ n) :
    setStartingOffset (RD_KAFKA_OFFSET_TAIL_BASE - n) ranges committedOffset watermark
        autoResetAtEnd = ⟨watermark._high - n, watermark._high - n, ranges._offsets⟩ ∧
    (watermark._high - n = max watermark._low (min watermark._high (watermark._high - n)) ↔
      watermark._low ≤ watermark._high - n) := by
  constructor
  · rw [setStartingOffset_tail _ _ _ _ _ hvalid (by omega)]
    have e : watermark._high - (RD_KAFKA_OFFSET_TAIL_BASE - (RD_KAFKA_OFFSET_TAIL_BASE - n)) =
        watermark._high - n := by omega
    rw [e]
  · omega

/-- C14 as amended, instance: low = 100, high = 110, n = 20 gives 90. -/
theorem C14_tail_not_clamped_witness :
    (0 : Int) ≠ RD_KAFKA_PARTITION_UA ∧ (1 : Int) ≤ 20 ∧
    setStartingOffset (RD_KAFKA_OFFSET_TAIL_BASE - 20)
        (freshRanges OFFSET_INVALID OFFSET_INVALID) OFFSET_INVALID ⟨0, 100, 110⟩ true =
      ⟨110 - 20, 110 - 20, []⟩ :=
  ⟨by decide, by decide,
    (C14_tail_not_clamped (freshRanges OFFSET_INVALID OFFSET_INVALID) OFFSET_INVALID
      ⟨0, 100, 110⟩ true 20 (by decide) (by decide)).1⟩

/-- C15: with a valid watermark, n ≥ 1 and high - n ≥ low, the request TAIL(n) sets the
begin and current offsets to high - n, so that the high watermark is exactly n offsets
past the starting offset, which lies within [low, high]. -/
theorem C15_relative_tail (ranges : OffsetRanges) (committedOffset : Int)
    (watermark : OffsetWatermark) (autoResetAtEnd : Bool) (n : Int)
    (hvalid : watermark._partition ≠ RD_KAFKA_PARTITION_UA)
    (hn : 1 ≤ n) (hlow : watermark._low ≤ watermark._high - n) :
    setStartingOffset (RD_KAFKA_OFFSET_TAIL_BASE - n) ranges committedOffset watermark
        autoResetAtEnd = ⟨watermark._high - n, watermark._high - n, ranges._offsets⟩ ∧
    watermark._high -
      (setStartingOffset (RD_KAFKA_OFFSET_TAIL_BASE - n) ranges committedOffset watermark
        autoResetAtEnd)._beginOffset = n ∧
    watermark._low ≤
      (setStartingOffset (RD_KAFKA_OFFSET_TAIL_BASE - n) ranges committedOffset watermark
        autoResetAtEnd)._beginOffset ∧
    (setStartingOffset (RD_KAFKA_OFFSET_TAIL_BASE - n) ranges committedOffset watermark
        autoResetAtEnd)._beginOffset ≤ watermark._high := by
  have e : setStartingOffset (RD_KAFKA_OFFSET_TAIL_BASE - n) ranges committedOffset watermark
      autoResetAtEnd = ⟨watermark._high - n, watermark._high - n, ranges._offsets⟩ := by
    rw [setStartingOffset_tail _ _ _ _ _ hvalid (by omega)]
    have e' : watermark._high -
        (RD_KAFKA_OFFSET_TAIL_BASE - (RD_KAFKA_OFFSET_TAIL_BASE - n)) =
          watermark._high - n := by omega
    rw [e']
  rw [e]
  refine ⟨rfl, ?_, ?_, ?_⟩
  · show watermark._high - (watermark._high - n) = n
    omega
  · exact hlow
  · show watermark._high - n ≤ watermark._high
    omega

/-- C15, instance: high = 200 and n = 5 give the starting offset 195. -/
theorem C15_relative_tail_witness :
    (0 : Int) ≠ RD_KAFKA_PARTITION_UA ∧ (1 : Int) ≤ 5 ∧ (100 : Int) ≤ 200 - 5 ∧
    setStartingOffset (RD_KAFKA_OFFSET_TAIL_BASE - 5)
        (freshRanges OFFSET_INVALID OFFSET_INVALID) OFFSET_INVALID ⟨0, 100, 200⟩ true =
      ⟨200 - 5, 200 - 5, []⟩ :=
  ⟨by decide, by decide, by decide,
    (C15_relative_tail (freshRanges OFFSET_INVALID OFFSET_INVALID) OFFSET_INVALID
      ⟨0, 100, 200⟩ true 5 (by decide) (by decide) (by decide)).1⟩

/-- The explicit request 105 on watermarks low = 100 and high = 110 lies inside
[low, high]; the newly constructed tracker is not started at 105 but left with its
initial offsets, and the acknowledgments 105, 106, 107 that follow absorb nothing. -/
theorem setStartingOffset_explicit_in_range_example :
    (setStartingOffset 105 (freshRanges OFFSET_INVALID OFFSET_INVALID) OFFSET_INVALID
      ⟨0, 100, 110⟩ true)._beginOffset ≠ 105 ∧
    acknowledgeAll
        (setStartingOffset 105 (freshRanges OFFSET_INVALID OFFSET_INVALID) OFFSET_INVALID
          ⟨0, 100, 110⟩ true) [105, 106, 107] =
      ⟨OFFSET_INVALID, OFFSET_INVALID, [⟨105, 107⟩]⟩ := by
  decide

/-- C17: whenever `setStartingOffset` assigns a starting offset (requests STORED, INVALID,
BEGINNING, END, or a TAIL request below the tail base, with a valid watermark), the begin
offset and the current offset are set to one and the same value, and the intervals are
those of the tracker it was given. -/
theorem C17_begin_equals_current (offset : Int) (ranges : OffsetRanges)
    (committedOffset : Int) (watermark : OffsetWatermark) (autoResetAtEnd : Bool)
    (hvalid : watermark._partition ≠ RD_KAFKA_PARTITION_UA)
    (hreq : offset = OFFSET_STORED ∨ offset = OFFSET_INVALID ∨ offset = OFFSET_BEGINNING ∨
      offset = OFFSET_END ∨ offset < RD_KAFKA_OFFSET_TAIL_BASE) :
    ∃ s : Int,
      setStartingOffset offset ranges committedOffset watermark autoResetAtEnd =
        ⟨s, s, ranges._offsets⟩ := by
  rcases hreq with h | h | h | h | h
  · subst h
    exact ⟨_, (stored_or_invalid ranges committedOffset watermark autoResetAtEnd hvalid).1⟩
  · subst h
    exact ⟨_, (stored_or_invalid ranges committedOffset watermark autoResetAtEnd hvalid).2⟩
  · subst h
    exact ⟨_, (beginning_and_end ranges committedOffset watermark autoResetAtEnd hvalid).1⟩
  · subst h
    exact ⟨_, (beginning_and_end ranges committedOffset watermark autoResetAtEnd hvalid).2⟩
  · exact ⟨_, setStartingOffset_tail offset ranges committedOffset watermark autoResetAtEnd
      hvalid h⟩

/-- C17, instance: the request TAIL(3) on watermarks low = 100 and high = 110. -/
theorem C17_begin_equals_current_witness :
    (0 : Int) ≠ RD_KAFKA_PARTITION_UA ∧
    ((-2003 : Int) = OFFSET_STORED ∨ (-2003 : Int) = OFFSET_INVALID ∨
      (-2003 : Int) = OFFSET_BEGINNING ∨ (-2003 : Int) = OFFSET_END ∨
      (-2003 : Int) < RD_KAFKA_OFFSET_TAIL_BASE) ∧
    ∃ s : Int,
      setStartingOffset (-2003) (freshRanges OFFSET_INVALID OFFSET_INVALID) OFFSET_INVALID
        ⟨0, 100, 110⟩ true = ⟨s, s, []⟩ :=
  ⟨by decide, by decide,
    C17_begin_equals_current (-2003) (freshRanges OFFSET_INVALID OFFSET_INVALID)
      OFFSET_INVALID ⟨0, 100, 110⟩ true (by decide) (by decide)⟩

/-! ## The offset manager: lookups, reset and construction -/

theorem mapFind_mapAssign_same {κ α : Type} [DecidableEq κ] (m : List (κ × α)) (k : κ) (v : α) :
    mapFind (mapAssign m k v) k = some v := by
  induction m with
  | nil => simp [mapAssign, mapFind]
  | cons kv rest ih =>
    obtain ⟨k', v'⟩ := kv
    by_cases h : k' = k
    · simp [mapAssign, mapFind, h]
    · simp [mapAssign, mapFind, h, ih]

theorem mapFind_mapAssign_other {κ α : Type} [DecidableEq κ] (m : List (κ × α)) (k k2 : κ)
    (v : α) (hne : k2 ≠ k) : mapFind (mapAssign m k v) k2 = mapFind m k2 := by
  induction m with
  | nil =>
    have hne' : ¬ k = k2 := fun e => hne e.symm
    simp [mapAssign, mapFind, hne']
  | cons kv rest ih =>
    obtain ⟨k', v'⟩ := kv
    by_cases h : k' = k
    · subst h
      have hne' : ¬ k' = k2 := fun e => hne e.symm
      simp [mapAssign, mapFind, hne']
    · by_cases h2 : k' = k2
      · subst h2
        simp [mapAssign, mapFind, h]
      · simp [mapAssign, mapFind, h, h2, ih]

theorem getOffsets_unknown_topic (self : OffsetManager) (partition : TopicPartition)
    (h1 : mapFind self._topicMap partition.topic = none) :
    (getCurrentOffset self partition).1 =
        Except.error (Exception.out_of_range ("Unknown topic: " ++ partition.topic)) ∧
    (getBeginOffset self partition).1 =
        Except.error (Exception.out_of_range ("Unknown topic: " ++ partition.topic)) := by
  unfold getCurrentOffset getBeginOffset getTopicSettings
  rw [h1]
  exact ⟨rfl, rfl⟩

theorem getOffsets_unknown_partition (self : OffsetManager) (partition : TopicPartition)
    (settings : TopicSettings) (h1 : mapFind self._topicMap partition.topic = some settings)
    (h2 : mapFind settings._partitions partition.partition = none) :
    (getCurrentOffset self partition).1 =
        Except.error
          (Exception.out_of_range ("Unknown partition: " ++ toString partition.partition)) ∧
    (getBeginOffset self partition).1 =
        Except.error
          (Exception.out_of_range ("Unknown partition: " ++ toString partition.partition)) := by
  unfold getCurrentOffset getBeginOffset getTopicSettings getOffsetRanges
  rw [h1]
  dsimp only
  rw [h2]
  exact ⟨rfl, rfl⟩

theorem getOffsets_known (self : OffsetManager) (partition : TopicPartition)
    (settings : TopicSettings) (ranges : OffsetRanges)
    (h1 : mapFind self._topicMap partition.topic = some settings)
    (h2 : mapFind settings._partitions partition.partition = some ranges) :
    (getCurrentOffset self partition).1 =
        Except.ok ⟨partition.topic, partition.partition, ranges._currentOffset⟩ ∧
    (getBeginOffset self partition).1 =
        Except.ok ⟨partition.topic, partition.partition, ranges._beginOffset⟩ := by
  unfold getCurrentOffset getBeginOffset getTopicSettings getOffsetRanges
  rw [h1]
  dsimp only
  rw [h2]
  exact ⟨rfl, rfl⟩

/-- C18: `getCurrentOffset` and `getBeginOffset` throw `std::out_of_range` exactly when the
topic is not in the topic map or the partition has no tracker under that topic; otherwise
they return (topic, partition, current offset) and (topic, partition, begin offset) of
that tracker; in every case the manager is left as it was. -/
theorem C18_get_offsets (self : OffsetManager) (partition : TopicPartition) :
    ((∃ what, (getCurrentOffset self partition).1 =
          Except.error (Exception.out_of_range what)) ↔
      (mapFind self._topicMap partition.topic = none ∨
        ∃ settings, mapFind self._topicMap partition.topic = some settings ∧
          mapFind settings._partitions partition.partition = none)) ∧
    ((∃ what, (getBeginOffset self partition).1 =
          Except.error (Exception.out_of_range what)) ↔
      (mapFind self._topicMap partition.topic = none ∨
        ∃ settings, mapFind self._topicMap partition.topic = some settings ∧
          mapFind settings._partitions partition.partition = none)) ∧
    (∀ settings ranges, mapFind self._topicMap partition.topic = some settings →
      mapFind settings._partitions partition.partition = some ranges →
        (getCurrentOffset self partition).1 =
          Except.ok ⟨partition.topic, partition.partition, ranges._currentOffset⟩ ∧
        (getBeginOffset self partition).1 =
          Except.ok ⟨partition.topic, partition.partition, ranges._beginOffset⟩) ∧
    (getCurrentOffset self partition).2 = self ∧
    (getBeginOffset self partition).2 = self := by
  refine ⟨?_, ?_, fun settings ranges h1 h2 => getOffsets_known self partition settings ranges h1 h2,
    rfl, rfl⟩
  · constructor
    · rintro ⟨what, hw⟩
      rcases h1 : mapFind self._topicMap partition.topic with _ | settings
      · exact Or.inl rfl
      · rcases h2 : mapFind settings._partitions partition.partition with _ | ranges
        · exact Or.inr ⟨settings, rfl, h2⟩
        · rw [(getOffsets_known self partition settings ranges h1 h2).1] at hw
          exact absurd hw (by simp)
    · rintro (h1 | ⟨settings, h1, h2⟩)
      · exact ⟨_, (getOffsets_unknown_topic self partition h1).1⟩
      · exact ⟨_, (getOffsets_unknown_partition self partition settings h1 h2).1⟩
  · constructor
    · rintro ⟨what, hw⟩
      rcases h1 : mapFind self._topicMap partition.topic with _ | settings
      · exact Or.inl rfl
      · rcases h2 : mapFind settings._partitions partition.partition with _ | ranges
        · exact Or.inr ⟨settings, rfl, h2⟩
        · rw [(getOffsets_known self partition settings ranges h1 h2).2] at hw
          exact absurd hw (by simp)
    · rintro (h1 | ⟨settings, h1, h2⟩)
      · exact ⟨_, (getOffsets_unknown_topic self partition h1).2⟩
      · exact ⟨_, (getOffsets_unknown_partition self partition settings h1 h2).2⟩

/-- C18, instance: a manager with one topic and one tracker; partition 0 is known. -/
theorem C18_get_offsets_witness :
    (getCurrentOffset ⟨[("t", ⟨true, [(0, trackerAt100)]⟩)], -2⟩ ⟨"t", 0, 5⟩).1 =
        Except.ok ⟨"t", 0, 100⟩ ∧
    (getBeginOffset ⟨[("t", ⟨true, [(0, trackerAt100)]⟩)], -2⟩ ⟨"t", 0, 5⟩).1 =
        Except.ok ⟨"t", 0, 100⟩ :=
  (C18_get_offsets ⟨[("t", ⟨true, [(0, trackerAt100)]⟩)], -2⟩ ⟨"t", 0, 5⟩).2.2.1
    ⟨true, [(0, trackerAt100)]⟩ trackerAt100 (by decide) (by decide)

/-- C19: `resetPartitionOffsets(topic, action)` with an action other than FetchOffsets
leaves the topic with no tracker (so `getCurrentOffset` throws for each of its
partitions), keeps the `autoResetAtEnd` setting the topic had, and leaves every other
topic and the broker timeout as they were. -/
theorem C19_reset_clears_topic (d : Defaults) (consumerManager : ConsumerManager)
    (self : OffsetManager) (topic : String) (action : ResetAction)
    (haction : action ≠ ResetAction.FetchOffsets) :
    (∃ settings2,
        mapFind (resetPartitionOffsets d consumerManager self topic action)._topicMap topic =
          some settings2 ∧
        settings2._partitions = [] ∧
        ∀ settings, mapFind self._topicMap topic = some settings →
          settings2._autoResetAtEnd = settings._autoResetAtEnd) ∧
    (∀ partition offset : Int,
      (getCurrentOffset (resetPartitionOffsets d consumerManager self topic action)
          ⟨topic, partition, offset⟩).1 =
        Except.error (Exception.out_of_range ("Unknown partition: " ++ toString partition))) ∧
    (∀ other : String, other ≠ topic →
      mapFind (resetPartitionOffsets d consumerManager self topic action)._topicMap other =
        mapFind self._topicMap other) ∧
    (resetPartitionOffsets d consumerManager self topic action)._brokerTimeout =
      self._brokerTimeout := by
  have hfind : mapFind (resetPartitionOffsets d consumerManager self topic action)._topicMap
      topic = some ⟨((mapFind self._topicMap topic).getD d.settings)._autoResetAtEnd, []⟩ := by
    unfold resetPartitionOffsets
    simp only [if_neg haction]
    exact mapFind_mapAssign_same _ _ _
  refine ⟨⟨_, hfind, rfl, ?_⟩, ?_, ?_, rfl⟩
  · intro settings hs
    simp [hs]
  · intro partition offset
    unfold getCurrentOffset getTopicSettings getOffsetRanges
    simp only [hfind]
    rfl
  · intro other hne
    unfold resetPartitionOffsets
    exact mapFind_mapAssign_other _ _ _ _ hne

/-- C19, instance: a manager with topics "t" and "u"; resetting "t" without fetching. -/
theorem C19_reset_clears_topic_witness :
    ResetAction.DoNotFetchOffsets ≠ ResetAction.FetchOffsets ∧
    (getCurrentOffset
        (resetPartitionOffsets ⟨-1001, -1001, true, ⟨-1, -1001, -1001⟩⟩ ⟨[], fun _ _ => none,
            fun _ _ => none, fun _ => [], fun _ => [], fun _ => []⟩
          ⟨[("t", ⟨false, [(0, trackerAt100)]⟩), ("u", ⟨true, [(3, trackerAt100)]⟩)], -2⟩
          "t" ResetAction.DoNotFetchOffsets) ⟨"t", 0, 0⟩).1 =
      Except.error (Exception.out_of_range ("Unknown partition: " ++ toString (0 : Int))) :=
  ⟨by decide,
    (C19_reset_clears_topic ⟨-1001, -1001, true, ⟨-1, -1001, -1001⟩⟩ ⟨[], fun _ _ => none,
        fun _ _ => none, fun _ => [], fun _ => [], fun _ => []⟩
      ⟨[("t", ⟨false, [(0, trackerAt100)]⟩), ("u", ⟨true, [(3, trackerAt100)]⟩)], -2⟩
      "t" ResetAction.DoNotFetchOffsets (by decide)).2.1 0 0⟩

/-- C20: constructing an `OffsetManager` with broker timeout t throws
`InvalidArgumentException` exactly when t ≤ 0 and t is neither Unlimited (-1) nor Disabled
(-2); it succeeds exactly when t > 0, t = -1 or t = -2. -/
theorem C20_broker_timeout (StringEqualCompare : String → String → Bool)
    (d : Defaults) (consumerManager : ConsumerManager) (t : Int) :
    (newOffsetManager StringEqualCompare d consumerManager t =
        Except.error (Exception.InvalidArgumentException 2 "Timeout values can be [-2, -1, >0]") ↔
      (t ≤ 0 ∧ t ≠ -1 ∧ t ≠ -2)) ∧
    ((∃ self, newOffsetManager StringEqualCompare d consumerManager t = Except.ok self) ↔
      (0 < t ∨ t = -1 ∨ t = -2)) ∧
    ((∃ e, newOffsetManager StringEqualCompare d consumerManager t = Except.error e) ↔
      ¬ (0 < t ∨ t = -1 ∨ t = -2)) := by
  have hU : TimerValues.Unlimited = -1 := rfl
  have hD : TimerValues.Disabled = -2 := rfl
  unfold newOffsetManager
  by_cases h : t ≤ 0 ∧ t ≠ TimerValues.Unlimited ∧ t ≠ TimerValues.Disabled
  · rw [if_pos h]
    rw [hU, hD] at h
    refine ⟨⟨fun _ => h, fun _ => rfl⟩, ⟨?_, ?_⟩, ⟨?_, ?_⟩⟩
    · rintro ⟨self, hs⟩
      exact absurd hs (by simp)
    · intro h'
      omega
    · intro _
      omega
    · intro _
      exact ⟨_, rfl⟩
  · rw [if_neg h]
    rw [hU, hD] at h
    refine ⟨⟨?_, fun h' => absurd h' h⟩, ⟨?_, ?_⟩, ⟨?_, ?_⟩⟩
    · intro h'
      exact absurd h' (by simp)
    · intro _
      omega
    · intro _
      exact ⟨_, rfl⟩
    · rintro ⟨e, he⟩
      exact absurd he (by simp)
    · intro h'
      omega

/-- C11: `insertOffset` leaves the begin offset unchanged for every tracker and every
offset, and so does every sequence of acknowledgments; hence `getBeginOffset` returns the
same value for a partition before and after its tracker has gone through any sequence of
acknowledgments. -/
theorem C11_beginOffset_unchanged (ranges : OffsetRanges) :
    (∀ offset : Int, (insertOffset ranges offset).1._beginOffset = ranges._beginOffset) ∧
    (∀ acks : List Int, (acknowledgeAll ranges acks)._beginOffset = ranges._beginOffset) ∧
    (∀ (self : OffsetManager) (partition : TopicPartition) (settings : TopicSettings)
        (acks : List Int),
      mapFind self._topicMap partition.topic = some settings →
      mapFind settings._partitions partition.partition = some ranges →
      (getBeginOffset
          ⟨mapAssign self._topicMap partition.topic
              { settings with
                _partitions := mapAssign settings._partitions partition.partition
                  (acknowledgeAll ranges acks) },
            self._brokerTimeout⟩ partition).1 =
        (getBeginOffset self partition).1) := by
  refine ⟨fun offset => acknowledge_begin ranges offset,
    fun acks => acknowledgeAll_begin acks ranges, ?_⟩
  intro self partition settings acks h1 h2
  rw [(getOffsets_known self partition settings ranges h1 h2).2,
    (getOffsets_known _ partition _ (acknowledgeAll ranges acks)
      (mapFind_mapAssign_same _ _ _) (mapFind_mapAssign_same _ _ _)).2,
    acknowledgeAll_begin]

/-- C11, instance: a manager whose partition 0 of topic "t" is tracked from 100; after
acknowledging 101, 100 and 102 `getBeginOffset` still returns 100. -/
theorem C11_beginOffset_unchanged_witness :
    (getBeginOffset
        ⟨mapAssign [("t", (⟨true, [(0, trackerAt100)]⟩ : TopicSettings))] "t"
            ⟨true, mapAssign [(0, trackerAt100)] 0
              (acknowledgeAll trackerAt100 [101, 100, 102])⟩,
          -2⟩ ⟨"t", 0, 0⟩).1 =
      (getBeginOffset ⟨[("t", ⟨true, [(0, trackerAt100)]⟩)], -2⟩ ⟨"t", 0, 0⟩).1 :=
  (C11_beginOffset_unchanged trackerAt100).2.2
    ⟨[("t", ⟨true, [(0, trackerAt100)]⟩)], -2⟩ ⟨"t", 0, 0⟩ ⟨true, [(0, trackerAt100)]⟩
    [101, 100, 102] (by decide) (by decide)

/-! ## Requests, watermarks and repeated acknowledgments -/

theorem setStartingOffset_unassigned (offset : Int) (ranges : OffsetRanges)
    (committedOffset : Int) (watermark : OffsetWatermark) (autoResetAtEnd : Bool)
    (hua : watermark._partition = RD_KAFKA_PARTITION_UA) :
    setStartingOffset offset ranges committedOffset watermark autoResetAtEnd = ranges := by
  unfold setStartingOffset
  rw [if_pos hua]

/-- A request other than STORED and INVALID is answered without reading the committed
offset or `autoResetAtEnd`. -/
theorem setStartingOffset_independent (offset : Int) (ranges : OffsetRanges)
    (committed1 committed2 : Int) (watermark : OffsetWatermark) (auto1 auto2 : Bool)
    (h1 : offset ≠ OFFSET_STORED) (h2 : offset ≠ OFFSET_INVALID) :
    setStartingOffset offset ranges committed1 watermark auto1 =
      setStartingOffset offset ranges committed2 watermark auto2 := by
  have hno : ¬ (offset = OFFSET_STORED ∨ offset = OFFSET_INVALID) := by
    rintro (h | h) <;> contradiction
  unfold setStartingOffset
  by_cases hv : watermark._partition = RD_KAFKA_PARTITION_UA
  · rw [if_pos hv, if_pos hv]
  · rw [if_neg hv, if_neg hv, if_neg hno, if_neg hno]

/-- C24, evaluated at the values the JSON schema documents: the schema text reads
"-1(begin),-2(end)", yet with watermarks low = 100 and high = 110 the requested offset -1
starts the partition at the high watermark 110 and the requested offset -2 starts it at
the low watermark 100. -/
theorem C24_schema_begin_end_swapped :
    partitionOffsetDescription =
      "A partition offset. Values are: -1000(stored),-1(begin),-2(end),>=0(exact or relative)" ∧
    setStartingOffset (-1) (freshRanges OFFSET_INVALID OFFSET_INVALID) OFFSET_INVALID
        ⟨0, 100, 110⟩ true = ⟨110, 110, []⟩ ∧
    setStartingOffset (-2) (freshRanges OFFSET_INVALID OFFSET_INVALID) OFFSET_INVALID
        ⟨0, 100, 110⟩ true = ⟨100, 100, []⟩ := by
  decide

/-- C26 fails as stated: acknowledging 103, 101, 100, 102 does not give the current offsets
99, 99, 100, 103, neither from begin offset 100 with current offset 99 nor from the tracker
that `setStartingOffset` leaves at 100. -/
theorem C26_counterexample :
    currentOffsetTrace ⟨100, 99, []⟩ [103, 101, 100, 102] ≠ [99, 99, 100, 103] ∧
    currentOffsetTrace trackerAt100 [103, 101, 100, 102] ≠ [99, 99, 100, 103] := by
  decide

/-- C26 as amended: on a tracker with begin offset 100 and current offset 99 (nothing
acknowledged), acknowledging 103, 101, 100, 102 in that order yields the current offsets
99, 99, 101, 103. -/
theorem C26_out_of_order_trace :
    currentOffsetTrace ⟨100, 99, []⟩ [103, 101, 100, 102] = [99, 99, 101, 103] := by
  decide

/-- C27, evaluated at a failing input: the tracker assigned at 100 has current offset 101
after acknowledging 101; acknowledging 101 again (the offset `forceCommitCurrentOffset`
passes to `saveOffset`) and then 102 leaves the current offset at 101, while acknowledging
102 alone moves it to 102. -/
theorem C27_reacknowledge_blocks :
    (acknowledge trackerAt100 101)._currentOffset = 101 ∧
    (acknowledgeAll (acknowledge trackerAt100 101) [101, 102])._currentOffset = 101 ∧
    (acknowledgeAll (acknowledge trackerAt100 101) [101, 102])._offsets = [⟨101, 102⟩] ∧
    (acknowledgeAll (acknowledge trackerAt100 101) [102])._currentOffset = 102 := by
  decide

/-- C28: for a BEGINNING, an END or a TAIL request (TAIL_BASE - n with n ≥ 0) and every
watermark, two runs of `setStartingOffset` that differ only in the committed offset and in
`autoResetAtEnd` produce the same tracker. -/
theorem C28_independent_of_committed (offset : Int) (ranges : OffsetRanges)
    (committed1 committed2 : Int) (watermark : OffsetWatermark) (auto1 auto2 : Bool)
    (hreq : offset = OFFSET_BEGINNING ∨ offset = OFFSET_END ∨
      offset ≤ RD_KAFKA_OFFSET_TAIL_BASE) :
    setStartingOffset offset ranges committed1 watermark auto1 =
      setStartingOffset offset ranges committed2 watermark auto2 := by
  have e1 : OFFSET_STORED = -1000 := rfl
  have e2 : OFFSET_INVALID = -1001 := rfl
  have e3 : OFFSET_BEGINNING = -2 := rfl
  have e4 : OFFSET_END = -1 := rfl
  have e5 : RD_KAFKA_OFFSET_TAIL_BASE = -2000 := rfl
  exact setStartingOffset_independent offset ranges committed1 committed2 watermark auto1 auto2
    (by omega) (by omega)

/-- C28, instance: TAIL(3) on watermarks low = 100 and high = 110, once with committed
offset 105 and `autoResetAtEnd` true, once with nothing committed and the flag false. -/
theorem C28_independent_of_committed_witness :
    ((-2003 : Int) = OFFSET_BEGINNING ∨ (-2003 : Int) = OFFSET_END ∨
      (-2003 : Int) ≤ RD_KAFKA_OFFSET_TAIL_BASE) ∧
    setStartingOffset (-2003) (freshRanges OFFSET_INVALID OFFSET_INVALID) 105 ⟨0, 100, 110⟩
        true =
      setStartingOffset (-2003) (freshRanges OFFSET_INVALID OFFSET_INVALID) OFFSET_INVALID
        ⟨0, 100, 110⟩ false :=
  ⟨by decide,
    C28_independent_of_committed (-2003) (freshRanges OFFSET_INVALID OFFSET_INVALID) 105
      OFFSET_INVALID ⟨0, 100, 110⟩ true false (by decide)⟩

theorem findWatermark_not_found (d : Defaults) (watermarks : List OffsetWatermark)
    (partition : Int) (hnone : ∀ w ∈ watermarks, w._partition ≠ partition) :
    findWatermark d watermarks partition = d.watermark := by
  unfold findWatermark
  have hfind : watermarks.find? (fun watermark => decide (watermark._partition = partition)) =
      none := by
    rw [List.find?_eq_none]
    intro w hw
    simpa using hnone w hw
  rw [hfind]

/-- C29: with an unassigned watermark (partition `RD_KAFKA_PARTITION_UA`)
`setStartingOffset` leaves the tracker as it was for every requested offset; that is the
watermark `findWatermark` returns when the broker reported none for the partition (the
default-constructed watermark being unassigned); and in every case `setStartingOffset`
leaves the interval set as it was. -/
theorem C29_unassigned_watermark (offset : Int) (ranges : OffsetRanges) (committedOffset : Int)
    (autoResetAtEnd : Bool) :
    (∀ watermark : OffsetWatermark, watermark._partition = RD_KAFKA_PARTITION_UA →
      setStartingOffset offset ranges committedOffset watermark autoResetAtEnd = ranges) ∧
    (∀ (d : Defaults) (watermarks : List OffsetWatermark) (partition : Int),
      d.watermark._partition = RD_KAFKA_PARTITION_UA →
      (∀ w ∈ watermarks, w._partition ≠ partition) →
      setStartingOffset offset ranges committedOffset (findWatermark d watermarks partition)
        autoResetAtEnd = ranges) ∧
    (∀ watermark : OffsetWatermark,
      (setStartingOffset offset ranges committedOffset watermark autoResetAtEnd)._offsets =
        ranges._offsets) := by
  refine ⟨fun watermark hua =>
      setStartingOffset_unassigned offset ranges committedOffset watermark autoResetAtEnd hua,
    ?_, fun watermark => setStartingOffset_offsets offset ranges committedOffset watermark
      autoResetAtEnd⟩
  intro d watermarks partition hd hnone
  rw [findWatermark_not_found d watermarks partition hnone]
  exact setStartingOffset_unassigned offset ranges committedOffset d.watermark autoResetAtEnd hd

/-- C29, instance: the broker reports a watermark for partition 1 only; the tracker of
partition 0, which holds [105, 107], is left as it was by a BEGINNING request. -/
theorem C29_unassigned_watermark_witness :
    (⟨-1001, -1001, true, ⟨-1, -1001, -1001⟩⟩ : Defaults).watermark._partition =
      RD_KAFKA_PARTITION_UA ∧
    (∀ w ∈ [(⟨1, 100, 110⟩ : OffsetWatermark)], w._partition ≠ 0) ∧
    setStartingOffset OFFSET_BEGINNING ⟨100, 101, [⟨105, 107⟩]⟩ 105
        (findWatermark ⟨-1001, -1001, true, ⟨-1, -1001, -1001⟩⟩ [⟨1, 100, 110⟩] 0) true =
      ⟨100, 101, [⟨105, 107⟩]⟩ :=
  ⟨by decide, by decide,
    (C29_unassigned_watermark OFFSET_BEGINNING ⟨100, 101, [⟨105, 107⟩]⟩ 105 true).2.1
      ⟨-1001, -1001, true, ⟨-1, -1001, -1001⟩⟩ [⟨1, 100, 110⟩] 0 (by decide) (by decide)⟩

/-- C25: whenever an error callback is configured, `handleException` invokes it exactly
once, whatever the log level argument is: with the exception's own Kafka error code and
message when the exception is a Kafka handle exception, and with the UNKNOWN error code
and the exception's message otherwise; without a configured error callback it is not
invoked. -/
theorem C25_error_callback_once {Metadata : Type} (ex : StdException) (metadata : Metadata)
    (config : TopicConfiguration) (level : LogLevel) :
    (config.errorCallback = true →
      (handleException ex metadata config level).filter CallbackCall.isError =
        [CallbackCall.error metadata (ex.handleError.getD RD_KAFKA_RESP_ERR_UNKNOWN) ex.what]) ∧
    (config.errorCallback = false →
      (handleException ex metadata config level).filter CallbackCall.isError = []) := by
  constructor
  · intro hc
    unfold handleException
    rw [if_pos hc]
    cases hex : ex.handleError <;> split_ifs <;> simp [CallbackCall.isError]
  · intro hc
    have hne : ¬ config.errorCallback = true := by simp [hc]
    unfold handleException
    rw [if_neg hne]
    split_ifs <;> simp [CallbackCall.isError]

/-- C25, instance: a handle exception with error code 7 at level debug, and a plain
exception at level emergency, both callbacks configured. -/
theorem C25_error_callback_once_witness :
    (⟨true, true⟩ : TopicConfiguration).errorCallback = true ∧
    (handleException ⟨"broker down", some 7⟩ "meta" ⟨true, true⟩ LogLevel.LogDebug).filter
        CallbackCall.isError = [CallbackCall.error "meta" 7 "broker down"] ∧
    (handleException ⟨"oops", none⟩ "meta" ⟨true, true⟩ LogLevel.LogEmerg).filter
        CallbackCall.isError = [CallbackCall.error "meta" RD_KAFKA_RESP_ERR_UNKNOWN "oops"] :=
  ⟨rfl,
    (C25_error_callback_once ⟨"broker down", some 7⟩ "meta" ⟨true, true⟩
      LogLevel.LogDebug).1 rfl,
    (C25_error_callback_once ⟨"oops", none⟩ "meta" ⟨true, true⟩ LogLevel.LogEmerg).1 rfl⟩

/-! ## Log level names -/

theorem normalizeName_name (l : LogLevel) : normalizeName l.name = l.name.toList := by
  cases l <;> decide

/-- Whatever the comparator is, `logLevelFromString` either returns a level or throws
`InvalidArgumentException(0, "Unknown log level")`. -/
theorem logLevelFromString_ok_or_unknown (compare : String → String → Bool) (level : String) :
    (∃ l, logLevelFromString compare level = Except.ok l) ∨
      logLevelFromString compare level =
        Except.error (Exception.InvalidArgumentException 0 "Unknown log level") := by
  unfold logLevelFromString
  split_ifs
  all_goals first
    | exact Or.inr rfl
    | exact Or.inl ⟨_, rfl⟩

/-- Whatever the comparator is, a level returned by `logLevelFromString` is one whose name
the comparator accepts for the argument. -/
theorem logLevelFromString_ok_accepts (compare : String → String → Bool) (level : String)
    (l : LogLevel) (h : logLevelFromString compare level = Except.ok l) :
    compare level l.name = true := by
  unfold logLevelFromString at h
  split_ifs at h with h1 h2 h3 h4 h5 h6 h7 h8
  all_goals (injection h with h; subst h; assumption)

theorem logLevelFromString_ok_iff (compare : String → String → Bool)
    (hcompare : ∀ s1 s2, compare s1 s2 = true ↔ normalizeName s1 = normalizeName s2)
    (level : String) (l : LogLevel) :
    logLevelFromString compare level = Except.ok l ↔ normalizeName level = l.name.toList := by
  unfold logLevelFromString
  by_cases h1 : compare level "emergency" = true
  · rw [if_pos h1, (hcompare _ _).1 h1]
    cases l <;> decide
  rw [if_neg h1]
  by_cases h2 : compare level "alert" = true
  · rw [if_pos h2, (hcompare _ _).1 h2]
    cases l <;> decide
  rw [if_neg h2]
  by_cases h3 : compare level "critical" = true
  · rw [if_pos h3, (hcompare _ _).1 h3]
    cases l <;> decide
  rw [if_neg h3]
  by_cases h4 : compare level "error" = true
  · rw [if_pos h4, (hcompare _ _).1 h4]
    cases l <;> decide
  rw [if_neg h4]
  by_cases h5 : compare level "warning" = true
  · rw [if_pos h5, (hcompare _ _).1 h5]
    cases l <;> decide
  rw [if_neg h5]
  by_cases h6 : compare level "notice" = true
  · rw [if_pos h6, (hcompare _ _).1 h6]
    cases l <;> decide
  rw [if_neg h6]
  by_cases h7 : compare level "info" = true
  · rw [if_pos h7, (hcompare _ _).1 h7]
    cases l <;> decide
  rw [if_neg h7]
  by_cases h8 : compare level "debug" = true
  · rw [if_pos h8, (hcompare _ _).1 h8]
    cases l <;> decide
  rw [if_neg h8]
  constructor
  · intro h
    exact absurd h (by simp)
  · intro h
    exfalso
    have hacc : compare level l.name = true :=
      (hcompare _ _).2 (h.trans (normalizeName_name l).symm)
    cases l
    · exact h1 hacc
    · exact h2 hacc
    · exact h3 hacc
    · exact h4 hacc
    · exact h5 hacc
    · exact h6 hacc
    · exact h7 hacc
    · exact h8 hacc

/-- C23: with a comparator that compares ignoring letter case and surrounding blanks,
`logLevelFromString` returns a level exactly for the strings that, with letter case and
surrounding blanks ignored, are the name of that level (emergency, alert, critical, error,
warning, notice, info, debug); the eight names have eight different levels; every other
string is rejected with `InvalidArgumentException`. -/
theorem C23_log_level_names (compare : String → String → Bool)
    (hcompare : ∀ s1 s2, compare s1 s2 = true ↔ normalizeName s1 = normalizeName s2)
    (level : String) :
    (∀ l : LogLevel, logLevelFromString compare level = Except.ok l ↔
      normalizeName level = l.name.toList) ∧
    (logLevelFromString compare level =
        Except.error (Exception.InvalidArgumentException 0 "Unknown log level") ↔
      ∀ l : LogLevel, normalizeName level ≠ l.name.toList) ∧
    (∀ l1 l2 : LogLevel, l1.name = l2.name → l1 = l2) := by
  refine ⟨fun l => logLevelFromString_ok_iff compare hcompare level l, ?_, ?_⟩
  · constructor
    · intro herr l hl
      rw [(logLevelFromString_ok_iff compare hcompare level l).2 hl] at herr
      exact absurd herr (by simp)
    · intro hall
      rcases logLevelFromString_ok_or_unknown compare level with ⟨l, hl⟩ | herr
      · exact absurd ((logLevelFromString_ok_iff compare hcompare level l).1 hl) (hall l)
      · exact herr
  · intro l1 l2
    cases l1 <;> cases l2 <;> decide

/-- C23, instance: with the comparator of the examples, "CRITICAL" is accepted as the
critical level and " error " as the error level, and "bad" is rejected. -/
theorem C23_log_level_names_witness :
    (∀ s1 s2, exampleStringEqualCompare s1 s2 = true ↔ normalizeName s1 = normalizeName s2) ∧
    logLevelFromString exampleStringEqualCompare "CRITICAL" = Except.ok LogLevel.LogCrit ∧
    logLevelFromString exampleStringEqualCompare " error " = Except.ok LogLevel.LogErr ∧
    logLevelFromString exampleStringEqualCompare "bad" =
      Except.error (Exception.InvalidArgumentException 0 "Unknown log level") :=
  ⟨fun s1 s2 => by unfold exampleStringEqualCompare; simp,
    ((C23_log_level_names exampleStringEqualCompare
      (fun s1 s2 => by unfold exampleStringEqualCompare; simp) "CRITICAL").1
        LogLevel.LogCrit).2 (by decide),
    ((C23_log_level_names exampleStringEqualCompare
      (fun s1 s2 => by unfold exampleStringEqualCompare; simp) " error ").1
        LogLevel.LogErr).2 (by decide),
    (C23_log_level_names exampleStringEqualCompare
      (fun s1 s2 => by unfold exampleStringEqualCompare; simp) "bad").2.1.2
        (by intro l; cases l <;> decide)⟩

/-! ## Configuration options: internal and rdkafka -/

theorem parseOptionsLoop_nil ( optionsPrefix : String) (allowed : OptionSet)
    (optionList : OptionLists) :
    parseOptionsLoop optionsPrefix allowed [] optionList = (Except.ok (), optionList) := rfl

theorem parseOptionsLoop_cons ( optionsPrefix : String) (allowed : OptionSet)
    (option : ConfigurationOption) (rest : List ConfigurationOption)
    (optionList : OptionLists) :
    parseOptionsLoop optionsPrefix allowed (option :: rest) optionList =
      if StringEqualCompareN option.key optionsPrefix optionsPrefix.length then
        match allowed.find option.key with
        | none =>
          (Except.error (Exception.InvalidOptionException option.key "Invalid"), optionList)
        | some _ =>
          parseOptionsLoop optionsPrefix allowed rest
            { optionList with internal := optionList.internal ++ [option] }
      else
        parseOptionsLoop optionsPrefix allowed rest
          { optionList with rdKafka := optionList.rdKafka ++ [option] } := rfl

/-- When the loop is left without an exception, the internal list has received the options
whose key begins with the given string and the rdkafka list the other ones, in order. -/
theorem parseOptionsLoop_ok ( optionsPrefix : String) (allowed : OptionSet)
    (config : List ConfigurationOption) :
    ∀ optionList : OptionLists,
      (parseOptionsLoop optionsPrefix allowed config optionList).1 = Except.ok () →
      (parseOptionsLoop optionsPrefix allowed config optionList).2 =
        ⟨optionList.all,
          optionList.internal ++ config.filter
            (fun o => StringEqualCompareN o.key optionsPrefix optionsPrefix.length),
          optionList.rdKafka ++ config.filter
            (fun o => !StringEqualCompareN o.key optionsPrefix optionsPrefix.length)⟩ := by
  induction config with
  | nil =>
    intro optionList _
    simp [parseOptionsLoop_nil]
  | cons option rest ih =>
    intro optionList hok
    rw [parseOptionsLoop_cons] at hok ⊢
    by_cases hp : StringEqualCompareN option.key optionsPrefix optionsPrefix.length = true
    · rw [if_pos hp] at hok ⊢
      cases hfind : allowed.find option.key with
      | none =>
        rw [hfind] at hok
        exact absurd hok (by simp)
      | some name =>
        rw [hfind] at hok
        dsimp only at hok ⊢
        rw [ih _ hok]
        simp [List.filter_cons, hp]
    · rw [if_neg hp] at hok ⊢
      rw [ih _ hok]
      simp [List.filter_cons, hp]

/-- The loop throws for the first option whose key begins with the given string and is not
in the allowed set. -/
theorem parseOptionsLoop_fails ( optionsPrefix : String) (allowed : OptionSet)
    (config : List ConfigurationOption) :
    ∀ optionList : OptionLists,
      (∃ o ∈ config,
        StringEqualCompareN o.key optionsPrefix optionsPrefix.length = true ∧
          allowed.find o.key = none) →
      ∃ o ∈ config,
        StringEqualCompareN o.key optionsPrefix optionsPrefix.length = true ∧
        allowed.find o.key = none ∧
        (parseOptionsLoop optionsPrefix allowed config optionList).1 =
          Except.error (Exception.InvalidOptionException o.key "Invalid") := by
  induction config with
  | nil =>
    intro optionList hbad
    obtain ⟨o, ho, _⟩ := hbad
    simp at ho
  | cons option rest ih =>
    intro optionList hbad
    rw [parseOptionsLoop_cons]
    have hrest : (¬ (StringEqualCompareN option.key optionsPrefix optionsPrefix.length = true ∧
        allowed.find option.key = none)) →
        ∃ o ∈ rest,
          StringEqualCompareN o.key optionsPrefix optionsPrefix.length = true ∧
            allowed.find o.key = none := by
      intro hnot
      obtain ⟨o, ho, hpo, hfo⟩ := hbad
      simp only [List.mem_cons] at ho
      rcases ho with rfl | ho
      · exact absurd ⟨hpo, hfo⟩ hnot
      · exact ⟨o, ho, hpo, hfo⟩
    by_cases hp : StringEqualCompareN option.key optionsPrefix optionsPrefix.length = true
    · rw [if_pos hp]
      cases hfind : allowed.find option.key with
      | none => exact ⟨option, List.mem_cons_self _ _, hp, hfind, rfl⟩
      | some name =>
        obtain ⟨o, ho, hpo, hfo, hres⟩ := ih _ (hrest (by simp [hfind]))
        exact ⟨o, List.mem_cons_of_mem _ ho, hpo, hfo, hres⟩
    · rw [if_neg hp]
      obtain ⟨o, ho, hpo, hfo, hres⟩ := ih _ (hrest (fun h => hp h.1))
      exact ⟨o, List.mem_cons_of_mem _ ho, hpo, hfo, hres⟩

/-- C22 fails as stated: with an empty allowed set the option
`internal.consumer.unknown.option`, whose key begins with `internal.` and is not in the
set, is not rejected; it is handed to rdkafka. -/
theorem C22_counterexample :
    StringEqualCompareN "internal.consumer.unknown.option" "internal." "internal.".length =
      true ∧
    (⟨[], fun a b => a == b⟩ : OptionSet).find "internal.consumer.unknown.option" = none ∧
    parseOptions "internal." ⟨[], fun a b => a == b⟩
        ⟨[⟨"internal.consumer.unknown.option", "bad"⟩], [], []⟩ =
      (Except.ok (),
        ⟨[⟨"internal.consumer.unknown.option", "bad"⟩], [],
          [⟨"internal.consumer.unknown.option", "bad"⟩]⟩) := by
  decide

/-- C22 as amended: with a non-empty allowed set, `parseOptions` throws
`InvalidOptionException` naming an offending key (the first one) whenever some option's key
begins with the internal options string and is not in the allowed set; with an empty
allowed set nothing is rejected and all options are handed to rdkafka. -/
theorem C22_unknown_internal_option ( optionsPrefix : String) (allowed : OptionSet)
    (optionList : OptionLists) :
    (allowed.empty = false →
      (∃ o ∈ optionList.all,
        StringEqualCompareN o.key optionsPrefix optionsPrefix.length = true ∧
          allowed.find o.key = none) →
      ∃ o ∈ optionList.all,
        StringEqualCompareN o.key optionsPrefix optionsPrefix.length = true ∧
        allowed.find o.key = none ∧
        (parseOptions optionsPrefix allowed optionList).1 =
          Except.error (Exception.InvalidOptionException o.key "Invalid")) ∧
    (allowed.empty = true →
      parseOptions optionsPrefix allowed optionList =
        (Except.ok (), { optionList with rdKafka := optionList.all })) := by
  constructor
  · intro hne hbad
    unfold parseOptions
    rw [if_pos (by simp [hne])]
    exact parseOptionsLoop_fails optionsPrefix allowed optionList.all optionList hbad
  · intro he
    unfold parseOptions
    rw [if_neg (by simp [he])]

/-- C22 as amended, instance: the key `internal.consumer.unknown.option` with the allowed
set holding `internal.consumer.read.size`. -/
theorem C22_unknown_internal_option_witness :
    (⟨["internal.consumer.read.size"], fun a b => a == b⟩ : OptionSet).empty = false ∧
    ∃ o ∈ [(⟨"metadata.broker.list", "b"⟩ : ConfigurationOption),
        ⟨"internal.consumer.unknown.option", "bad"⟩],
      StringEqualCompareN o.key "internal." "internal.".length = true ∧
      (⟨["internal.consumer.read.size"], fun a b => a == b⟩ : OptionSet).find o.key = none ∧
      (parseOptions "internal." ⟨["internal.consumer.read.size"], fun a b => a == b⟩
          ⟨[⟨"metadata.broker.list", "b"⟩, ⟨"internal.consumer.unknown.option", "bad"⟩],
            [], []⟩).1 =
        Except.error (Exception.InvalidOptionException o.key "Invalid") :=
  ⟨by decide,
    (C22_unknown_internal_option "internal."
      ⟨["internal.consumer.read.size"], fun a b => a == b⟩
      ⟨[⟨"metadata.broker.list", "b"⟩, ⟨"internal.consumer.unknown.option", "bad"⟩],
        [], []⟩).1 (by decide)
      ⟨⟨"internal.consumer.unknown.option", "bad"⟩, by decide, by decide, by decide⟩⟩

/-- C30: with a non-empty allowed set, when `parseOptions` succeeds the internal list has
received exactly the options whose key begins with the given string (letter case ignored)
and the rdkafka list exactly the other ones, each in their original order; together they
are a rearrangement of the input, nothing lost and nothing twice; and the list of all
options is as it was. -/
theorem C30_options_partitioned ( optionsPrefix : String) (allowed : OptionSet)
    (optionList : OptionLists) (hne : allowed.empty = false)
    (hok : (parseOptions optionsPrefix allowed optionList).1 = Except.ok ()) :
    (parseOptions optionsPrefix allowed optionList).2 =
      ⟨optionList.all,
        optionList.internal ++ optionList.all.filter
          (fun o => StringEqualCompareN o.key optionsPrefix optionsPrefix.length),
        optionList.rdKafka ++ optionList.all.filter
          (fun o => !StringEqualCompareN o.key optionsPrefix optionsPrefix.length)⟩ ∧
    List.Perm
      (optionList.all.filter
          (fun o => StringEqualCompareN o.key optionsPrefix optionsPrefix.length) ++
        optionList.all.filter
          (fun o => !StringEqualCompareN o.key optionsPrefix optionsPrefix.length))
      optionList.all := by
  have hpos : (!allowed.empty) = true := by simp [hne]
  unfold parseOptions at hok ⊢
  rw [if_pos hpos] at hok ⊢
  exact ⟨parseOptionsLoop_ok optionsPrefix allowed optionList.all optionList hok,
    List.filter_append_perm _ _⟩

/-- C30, instance: three options, two of them internal and allowed. -/
theorem C30_options_partitioned_witness :
    (⟨["internal.consumer.read.size", "internal.consumer.pause.on.start"],
        exampleStringEqualCompare⟩ : OptionSet).empty = false ∧
    (parseOptions "internal."
        ⟨["internal.consumer.read.size", "internal.consumer.pause.on.start"],
          exampleStringEqualCompare⟩
        ⟨[⟨"Internal.consumer.read.size", "5"⟩, ⟨"group.id", "g"⟩,
            ⟨"internal.consumer.pause.on.start", "true"⟩], [], []⟩).2 =
      ⟨[⟨"Internal.consumer.read.size", "5"⟩, ⟨"group.id", "g"⟩,
          ⟨"internal.consumer.pause.on.start", "true"⟩],
        [] ++ [(⟨"Internal.consumer.read.size", "5"⟩ : ConfigurationOption), ⟨"group.id", "g"⟩,
          ⟨"internal.consumer.pause.on.start", "true"⟩].filter
            (fun o => StringEqualCompareN o.key "internal." "internal.".length),
        [] ++ [(⟨"Internal.consumer.read.size", "5"⟩ : ConfigurationOption), ⟨"group.id", "g"⟩,
          ⟨"internal.consumer.pause.on.start", "true"⟩].filter
            (fun o => !StringEqualCompareN o.key "internal." "internal.".length)⟩ :=
  ⟨by decide,
    (C30_options_partitioned "internal."
      ⟨["internal.consumer.read.size", "internal.consumer.pause.on.start"],
        exampleStringEqualCompare⟩
      ⟨[⟨"Internal.consumer.read.size", "5"⟩, ⟨"group.id", "g"⟩,
          ⟨"internal.consumer.pause.on.start", "true"⟩], [], []⟩
      (by decide) (by decide)).1⟩

/-! ## The constructor and `autoResetAtEnd` -/

theorem newOffsetManager_topicMap (StringEqualCompare : String → String → Bool)
    (d : Defaults) (consumerManager : ConsumerManager)
    (brokerTimeout : Int) (self : OffsetManager)
    (hok : newOffsetManager StringEqualCompare d consumerManager brokerTimeout = Except.ok self) :
    self._topicMap = consumerManager.getTopics.foldl (constructorStep StringEqualCompare d consumerManager) [] := by
  unfold newOffsetManager at hok
  split_ifs at hok
  injection hok with hok
  rw [← hok]
  rfl

theorem queryOffsetsFromBroker_autoReset (d : Defaults) (consumerManager : ConsumerManager)
    (topic : String) (settings : TopicSettings) :
    (queryOffsetsFromBroker d consumerManager topic settings)._autoResetAtEnd =
      settings._autoResetAtEnd := by
  unfold queryOffsetsFromBroker
  generalize consumerManager.getPartitionAssignment topic = assignment
  induction assignment generalizing settings with
  | nil => rfl
  | cons toppar rest ih =>
    rw [List.foldl_cons, ih]

theorem constructorStep_same (StringEqualCompare : String → String → Bool)
    (d : Defaults) (consumerManager : ConsumerManager)
    (topicMap : List (String × TopicSettings)) (topic : String) :
    ∃ settings, mapFind (constructorStep StringEqualCompare d consumerManager topicMap topic) topic =
        some settings ∧
      (ResetsToBeginning StringEqualCompare consumerManager topic → settings._autoResetAtEnd = false) ∧
      (¬ ResetsToBeginning StringEqualCompare consumerManager topic →
        settings._autoResetAtEnd =
          ((mapFind topicMap topic).getD d.settings)._autoResetAtEnd) := by
  unfold constructorStep
  refine ⟨_, mapFind_mapAssign_same _ _ _, ?_⟩
  rw [queryOffsetsFromBroker_autoReset]
  unfold ResetsToBeginning
  cases hopt : offsetResetOption consumerManager topic with
  | none => simp
  | some value =>
    dsimp only
    by_cases h1 : StringEqualCompare value "smallest" = true
    · rw [if_pos h1]
      exact ⟨fun _ => rfl, fun hn => absurd ⟨value, rfl, Or.inl h1⟩ hn⟩
    · rw [if_neg h1]
      by_cases h2 : StringEqualCompare value "earliest" = true
      · rw [if_pos h2]
        exact ⟨fun _ => rfl, fun hn => absurd ⟨value, rfl, Or.inr (Or.inl h2)⟩ hn⟩
      · rw [if_neg h2]
        by_cases h3 : StringEqualCompare value "beginning" = true
        · rw [if_pos h3]
          exact ⟨fun _ => rfl, fun hn => absurd ⟨value, rfl, Or.inr (Or.inr h3)⟩ hn⟩
        · rw [if_neg h3]
          refine ⟨?_, fun _ => rfl⟩
          rintro ⟨v, hv, hor⟩
          injection hv with hv
          subst hv
          rcases hor with h | h | h
          · exact absurd h h1
          · exact absurd h h2
          · exact absurd h h3

theorem constructorStep_other (StringEqualCompare : String → String → Bool)
    (d : Defaults) (consumerManager : ConsumerManager)
    (topicMap : List (String × TopicSettings)) (topic other : String) (hne : other ≠ topic) :
    mapFind (constructorStep StringEqualCompare d consumerManager topicMap topic) other =
      mapFind topicMap other := by
  unfold constructorStep
  exact mapFind_mapAssign_other _ _ _ _ hne

/-- The property the constructor's loop maintains: every topic of the map has
`autoResetAtEnd` false exactly when its option resets to the beginning. -/
theorem constructorStep_invariant (StringEqualCompare : String → String → Bool)
    (d : Defaults) (consumerManager : ConsumerManager)
    (hd : d.autoResetAtEnd = true) (topicMap : List (String × TopicSettings)) (topic : String)
    (hinv : ∀ t s, mapFind topicMap t = some s →
      (s._autoResetAtEnd = false ↔ ResetsToBeginning StringEqualCompare consumerManager t)) :
    ∀ t s, mapFind (constructorStep StringEqualCompare d consumerManager topicMap topic) t = some s →
      (s._autoResetAtEnd = false ↔ ResetsToBeginning StringEqualCompare consumerManager t) := by
  intro t s hts
  by_cases ht : t = topic
  · subst ht
    obtain ⟨s2, hfind, hyes, hno⟩ := constructorStep_same StringEqualCompare d consumerManager topicMap t
    rw [hfind] at hts
    injection hts with hts
    subst hts
    by_cases hr : ResetsToBeginning StringEqualCompare consumerManager t
    · exact ⟨fun _ => hr, fun _ => hyes hr⟩
    · rw [hno hr]
      cases hm : mapFind topicMap t with
      | none =>
        simp only [Option.getD_none, Defaults.settings, hd]
        exact ⟨fun h => absurd h (by simp), fun h => absurd h hr⟩
      | some s0 =>
        simp only [Option.getD_some]
        exact hinv t s0 hm
  · rw [constructorStep_other StringEqualCompare d consumerManager topicMap topic t ht] at hts
    exact hinv t s hts

theorem constructor_loop (StringEqualCompare : String → String → Bool)
    (d : Defaults) (consumerManager : ConsumerManager)
    (hd : d.autoResetAtEnd = true) (topics : List String) :
    ∀ topicMap : List (String × TopicSettings),
      (∀ t s, mapFind topicMap t = some s →
        (s._autoResetAtEnd = false ↔ ResetsToBeginning StringEqualCompare consumerManager t)) →
      (∀ t s, mapFind (topics.foldl (constructorStep StringEqualCompare d consumerManager) topicMap) t = some s →
        (s._autoResetAtEnd = false ↔ ResetsToBeginning StringEqualCompare consumerManager t)) ∧
      (∀ t, (t ∈ topics ∨ (mapFind topicMap t).isSome = true) →
        (mapFind (topics.foldl (constructorStep StringEqualCompare d consumerManager) topicMap) t).isSome =
          true) := by
  induction topics with
  | nil =>
    intro topicMap hinv
    refine ⟨hinv, ?_⟩
    intro t ht
    rcases ht with ht | ht
    · simp at ht
    · exact ht
  | cons topic rest ih =>
    intro topicMap hinv
    rw [List.foldl_cons]
    obtain ⟨h1, h2⟩ := ih (constructorStep StringEqualCompare d consumerManager topicMap topic)
      (constructorStep_invariant StringEqualCompare d consumerManager hd topicMap topic hinv)
    refine ⟨h1, ?_⟩
    intro t ht
    apply h2
    by_cases hte : t = topic
    · right
      subst hte
      obtain ⟨s2, hfind, _, _⟩ := constructorStep_same StringEqualCompare d consumerManager topicMap t
      rw [hfind]
      rfl
    · rcases ht with ht | ht
      · simp only [List.mem_cons] at ht
        rcases ht with ht | ht
        · exact absurd ht hte
        · exact Or.inl ht
      · right
        rw [constructorStep_other StringEqualCompare d consumerManager topicMap topic t hte]
        exact ht

/-- C21: when construction succeeds (and a default-constructed `TopicSettings` has
`autoResetAtEnd` true), every managed topic has settings in the topic map whose
`autoResetAtEnd` is false exactly when the topic's `auto.offset.reset` option (the topic
option when the configuration has none) has the value smallest, earliest or beginning,
compared by the program's comparator (ignoring case), and true for every other value and
when the option is absent. -/
theorem C21_autoResetAtEnd (StringEqualCompare : String → String → Bool)
    (d : Defaults) (consumerManager : ConsumerManager)
    (brokerTimeout : Int) (self : OffsetManager) (hd : d.autoResetAtEnd = true)
    (hok : newOffsetManager StringEqualCompare d consumerManager brokerTimeout = Except.ok self)
    (topic : String) (htopic : topic ∈ consumerManager.getTopics) :
    ∃ settings, mapFind self._topicMap topic = some settings ∧
      (settings._autoResetAtEnd = false ↔
        ∃ value, offsetResetOption consumerManager topic = some value ∧
          (StringEqualCompare value "smallest" = true ∨
            StringEqualCompare value "earliest" = true ∨
            StringEqualCompare value "beginning" = true)) ∧
      (settings._autoResetAtEnd = true ↔
        ¬ ∃ value, offsetResetOption consumerManager topic = some value ∧
          (StringEqualCompare value "smallest" = true ∨
            StringEqualCompare value "earliest" = true ∨
            StringEqualCompare value "beginning" = true)) := by
  obtain ⟨hinv, hpresent⟩ := constructor_loop StringEqualCompare d consumerManager hd consumerManager.getTopics []
    (fun t s h => absurd h (by simp [mapFind]))
  rw [← newOffsetManager_topicMap StringEqualCompare d consumerManager brokerTimeout self hok] at hinv hpresent
  have hsome := hpresent topic (Or.inl htopic)
  cases hfind : mapFind self._topicMap topic with
  | none =>
    rw [hfind] at hsome
    exact absurd hsome (by simp)
  | some settings =>
    have hiff := hinv topic settings hfind
    refine ⟨settings, rfl, hiff, ?_⟩
    constructor
    · intro ht hr
      rw [hiff.2 hr] at ht
      exact absurd ht (by simp)
    · intro hnr
      cases hb : settings._autoResetAtEnd with
      | true => rfl
      | false => exact absurd (hiff.1 hb) hnr

/-- C21, instance: the example consumer manager; topic "t" has the option value EARLIEST
and topic "u" the value latest; the comparator is the one of the examples. -/
theorem C21_autoResetAtEnd_witness :
    exampleDefaults.autoResetAtEnd = true ∧
    newOffsetManager exampleStringEqualCompare exampleDefaults exampleConsumerManager (-2) =
      Except.ok ⟨[("t", ⟨false, [(0, ⟨100, 100, []⟩)]⟩), ("u", ⟨true, []⟩)], -2⟩ ∧
    "t" ∈ exampleConsumerManager.getTopics ∧
    ∃ settings,
      mapFind (⟨[("t", ⟨false, [(0, ⟨100, 100, []⟩)]⟩), ("u", ⟨true, []⟩)], -2⟩ :
        OffsetManager)._topicMap "t" = some settings ∧
      (settings._autoResetAtEnd = false ↔
        ∃ value, offsetResetOption exampleConsumerManager "t" = some value ∧
          (exampleStringEqualCompare value "smallest" = true ∨
            exampleStringEqualCompare value "earliest" = true ∨
            exampleStringEqualCompare value "beginning" = true)) ∧
      (settings._autoResetAtEnd = true ↔
        ¬ ∃ value, offsetResetOption exampleConsumerManager "t" = some value ∧
          (exampleStringEqualCompare value "smallest" = true ∨
            exampleStringEqualCompare value "earliest" = true ∨
            exampleStringEqualCompare value "beginning" = true)) :=
  ⟨rfl, by decide, by decide,
    C21_autoResetAtEnd exampleStringEqualCompare exampleDefaults exampleConsumerManager (-2) _ rfl (by decide) "t"
      (by decide)⟩

end Corokafka
